import Mathlib

/-!
# Bilibili danmaku source: the room connection pool

A shallow embedding of `src/index.js` (class `BilibiliDanmakuSource`).

* JavaScript exceptions are explicit: an operation is a function from the
  state of the source object to a completion (normal or thrown) together with
  the state it leaves behind.  State changes made before a `throw` persist,
  and `try`/`catch` resumes from the state at the point of the throw.
* The upstream provider (`bilibili-live-ws`) is outside the repository.  Whether
  `new KeepLiveWS/KeepLiveTCP` or `live.close()` throws during a call is given
  by an `Env` argument, and every call made to the provider is recorded in
  `Source.calls`.
* `roomId` is an integer; `counter` is a JavaScript number that only ever holds
  integers and is modelled as an `Int` (exact below 2^53).
* The base-class hooks `super.onJoin/onLeave/onReconnect` and the logger come
  from external packages; they are taken not to throw and not to touch
  `liveList`.
-/

namespace BilibiliDanmaku

/-! ## Data model -/

abbrev RoomId := Int

/-- A reference to a connection object (`KeepLiveWS` or `KeepLiveTCP`): its
index in `Source.conns`. -/
abbrev Handle := Nat

/-- The two values `this.bilibiliProtocol` can hold after the constructor. -/
inductive Protocol where
  | ws
  | tcp
  deriving DecidableEq, Repr

/-- Values thrown inside the operations of the source. -/
inductive JSError where
  | typeError (msg : String)
  | connectionError (roomId : RoomId)
  | closeError (live : Handle)
  deriving DecidableEq, Repr

/-- A connection object of the upstream provider. `ready` records that the
object has emitted its `live` signal (initial handshake done), `closed` that
`close()` has returned on it. -/
structure Conn where
  roomId : RoomId
  protocol : Protocol
  ready : Bool
  closed : Bool
  deriving DecidableEq, Repr

/-- A call made to the upstream provider: a constructor call (with the handle
it returned, or `none` when it threw), or `close()` on a handle (with whether it
returned normally). -/
inductive Call where
  | create (roomId : RoomId) (protocol : Protocol) (result : Option Handle)
  | close (live : Handle) (ok : Bool)
  deriving DecidableEq, Repr

/-- The value stored at `this.liveList[roomId]`: `live` is the connection object
and `counter` the number of subscribers. -/
structure Entity where
  live : Handle
  counter : Int
  deriving DecidableEq, Repr

inductive LogLevel where
  | debug
  | info
  | error
  deriving DecidableEq, Repr

structure LogLine where
  level : LogLevel
  text : String
  deriving DecidableEq, Repr

/-- JavaScript values as they occur in an upstream payload. Numbers are the
integers (sender ids and timestamps are integers): `number n` is the Number
nearest to `n`, which is `n` itself whenever `n` is below 2^53 in magnitude. -/
inductive JSValue where
  | undefined
  | null
  | bool (b : Bool)
  | number (n : Int)
  | string (s : String)
  | array (items : List JSValue)
  | object (fields : List (String × JSValue))

/-- The argument of `new Danmaku(...)`, field by field. -/
structure Sender where
  uid : JSValue
  username : JSValue
  url : String

structure Danmaku where
  sender : Sender
  text : JSValue
  timestamp : JSValue
  roomId : RoomId

/-- The state of a `BilibiliDanmakuSource` object together with the state of
its collaborators: `liveList` in property insertion order, the connection
objects constructed so far, the calls made to the provider, the log lines and
the records passed to `sendDanmaku`. -/
structure Source where
  bilibiliProtocol : Protocol
  liveList : List (RoomId × Entity)
  conns : List Conn
  calls : List Call
  log : List LogLine
  sent : List Danmaku

/-- What the environment does during one operation: whether the connection
constructor throws and whether `close()` throws. -/
structure Env where
  createThrows : Bool
  closeThrows : Bool
  deriving DecidableEq, Repr

/-- The environment in which neither creation nor close fails. -/
def Env.ok : Env := { createThrows := false, closeThrows := false }

/-! ## Completions and the effect type -/

/-- An effectful computation: from a state to a completion and the state left
behind. -/
def Eff (α : Type) : Type := Source → Except JSError α × Source

namespace Eff

def ret {α : Type} (a : α) : Eff α := fun s => (.ok a, s)

def andThen {α β : Type} (m : Eff α) (f : α → Eff β) : Eff β := fun s =>
  match m s with
  | (.ok a, s1) => f a s1
  | (.error e, s1) => (.error e, s1)

/-- The JavaScript `throw`. -/
def throwJS {α : Type} (e : JSError) : Eff α := fun s => (.error e, s)

/-- The JavaScript `try body catch (e) handler`. -/
def tryCatchJS {α : Type} (body : Eff α) (handler : JSError → Eff α) : Eff α := fun s =>
  match body s with
  | (.ok a, s1) => (.ok a, s1)
  | (.error e, s1) => handler e s1

def get : Eff Source := fun s => (.ok s, s)

def modify (f : Source → Source) : Eff Unit := fun s => (.ok (), f s)

end Eff

instance : Monad Eff where
  pure := Eff.ret
  bind := Eff.andThen

/-! ## The `liveList` object -/

/-- The lookup `liveList[roomId]`; `none` is `undefined`. -/
def getEntity : List (RoomId × Entity) → RoomId → Option Entity
  | [], _ => none
  | (k, e) :: rest, roomId => if k = roomId then some e else getEntity rest roomId

/-- The assignment `liveList[roomId] = entity`: an existing property keeps its
place, a new one is added last. -/
def setEntity : List (RoomId × Entity) → RoomId → Entity → List (RoomId × Entity)
  | [], roomId, entity => [(roomId, entity)]
  | (k, e) :: rest, roomId, entity =>
    if k = roomId then (k, entity) :: rest else (k, e) :: setEntity rest roomId entity

/-- The statement `delete liveList[roomId]`. -/
def deleteEntity (l : List (RoomId × Entity)) (roomId : RoomId) : List (RoomId × Entity) :=
  l.filter (fun p => decide (p.1 ≠ roomId))

/-- The subscriber count of a room: the counter of its entry, 0 without one. -/
def subscriberCount (s : Source) (roomId : RoomId) : Int :=
  match getEntity s.liveList roomId with
  | none => 0
  | some entity => entity.counter

/-- Whether `liveList` has an entry for the room. -/
def hasEntry (s : Source) (roomId : RoomId) : Bool :=
  (getEntity s.liveList roomId).isSome

/-! ## Collaborators -/

def loggerDebug (text : String) : Eff Unit :=
  Eff.modify fun s => { s with log := s.log ++ [⟨.debug, text⟩] }

def loggerInfo (text : String) : Eff Unit :=
  Eff.modify fun s => { s with log := s.log ++ [⟨.info, text⟩] }

def JSError.text : JSError → String
  | .typeError msg => "TypeError: " ++ msg
  | .connectionError roomId => "Error: cannot connect to room " ++ toString roomId
  | .closeError live => "Error: cannot close connection " ++ toString live

/-- The call `this.logger.error(e)`. -/
def loggerError (e : JSError) : Eff Unit :=
  Eff.modify fun s => { s with log := s.log ++ [⟨.error, e.text⟩] }

/-- The hook `super.onJoin(roomId)` of `BaseDanmakuWebSocketSource`. -/
def superOnJoin (_roomId : RoomId) : Eff Unit := pure ()

/-- The hook `super.onLeave(roomId)` of `BaseDanmakuWebSocketSource`. -/
def superOnLeave (_roomId : RoomId) : Eff Unit := pure ()

/-- The hook `super.onReconnect(roomId)` of `BaseDanmakuWebSocketSource`. -/
def superOnReconnect (_roomId : RoomId) : Eff Unit := pure ()

/-- The method `this.sendDanmaku(danmaku)` of the base class: the record is
handed to the subscriber transport. -/
def sendDanmaku (danmaku : Danmaku) : Eff Unit :=
  Eff.modify fun s => { s with sent := s.sent ++ [danmaku] }

/-- Mark the connection object `live` as closed. -/
def markClosed : List Conn → Handle → List Conn
  | [], _ => []
  | c :: rest, 0 => { c with closed := true } :: rest
  | c :: rest, live + 1 => c :: markClosed rest live

/-- Mark the connection object `live` as having emitted its `live` signal. -/
def markReady : List Conn → Handle → List Conn
  | [], _ => []
  | c :: rest, 0 => { c with ready := true } :: rest
  | c :: rest, live + 1 => c :: markReady rest live

/-- The call `live.close()` on a connection object. -/
def liveClose (env : Env) (live : Handle) : Eff Unit := fun s =>
  if env.closeThrows then
    (.error (.closeError live), { s with calls := s.calls ++ [.close live false] })
  else
    (.ok (), { s with conns := markClosed s.conns live,
                      calls := s.calls ++ [.close live true] })

/-- The constructor call `new KeepLiveWS(roomId)` or `new KeepLiveTCP(roomId)`:
a fresh connection object, not yet ready and not closed. -/
def newKeepLive (env : Env) (protocol : Protocol) (roomId : RoomId) : Eff Handle := fun s =>
  if env.createThrows then
    (.error (.connectionError roomId),
      { s with calls := s.calls ++ [.create roomId protocol none] })
  else
    (.ok s.conns.length,
      { s with conns := s.conns ++ [{ roomId := roomId, protocol := protocol,
                                      ready := false, closed := false }],
               calls := s.calls ++ [.create roomId protocol (some s.conns.length)] })

/-! ## Property access and string conversion on payload values -/

inductive PropertyKey where
  | name (s : String)
  | index (i : Nat)

def lookupField : List (String × JSValue) → String → JSValue
  | [], _ => .undefined
  | (k, v) :: rest, key => if k = key then v else lookupField rest key

def hasField : List (String × JSValue) → String → Bool
  | [], _ => false
  | (k, _) :: rest, key => if k = key then true else hasField rest key

/-- The property read `value[key]`. Reading a property of `undefined` or `null`
throws a `TypeError`; a missing property reads as `undefined`. A string is a
sequence of single-unit characters. -/
def JSValue.getProp : JSValue → PropertyKey → Except JSError JSValue
  | .undefined, _ => .error (.typeError "Cannot read properties of undefined")
  | .null, _ => .error (.typeError "Cannot read properties of null")
  | .bool _, _ => .ok .undefined
  | .number _, _ => .ok .undefined
  | .string str, .index i =>
    match str.toList[i]? with
    | some c => .ok (.string (String.singleton c))
    | none => .ok .undefined
  | .string str, .name key =>
    if key = "length" then .ok (.number str.length) else .ok .undefined
  | .array items, .index i => .ok (items.getD i .undefined)
  | .array items, .name key =>
    if key = "length" then .ok (.number items.length) else .ok .undefined
  | .object fields, .name key => .ok (lookupField fields key)
  | .object fields, .index i => .ok (lookupField fields (toString i))

/-- The Number nearest to a natural number: the number itself below 2^53, and
above that the nearest multiple of the spacing of Numbers there (a tie goes to
the even mantissa). -/
def nearestDouble (n : Nat) : Nat :=
  if n < 2 ^ 53 then n else
    let shift := Nat.log2 n - 52
    let q := n / 2 ^ shift
    let r := n % 2 ^ shift
    let half := 2 ^ (shift - 1)
    let q1 := if half < r ∨ (r = half ∧ q % 2 = 1) then q + 1 else q
    q1 * 2 ^ shift

/-- Whether the real number `x2 / 2` rounds to the Number `v`, for `v` at least
2^53: it lies strictly between the midpoints to the two neighbours of `v`, or on
one of them when the mantissa of `v` is even. -/
def roundsTo (v x2 : Nat) : Bool :=
  let e := Nat.log2 v - 52
  let m := v / 2 ^ e
  let ulp := 2 ^ e
  let gapBelow := if m = 2 ^ 52 then ulp / 2 else ulp
  let lo2 := 2 * v - gapBelow
  let hi2 := 2 * v + ulp
  decide ((lo2 < x2 ∧ x2 < hi2) ∨ (m % 2 = 0 ∧ (x2 = lo2 ∨ x2 = hi2)))

/-- The decimal with the fewest significant digits that rounds to the Number
`v` (at least 2^53), the one closest to `v` among those, searched from `k`
significant digits upwards. -/
def shortestDecimal (v : Nat) : Nat → Nat → Nat
  | 0, _ => v
  | fuel + 1, k =>
    let d := (Nat.toDigits 10 v).length
    if d ≤ k then v else
      let p := 10 ^ (d - k)
      let lo := v / p * p
      let hi := lo + p
      if roundsTo v (2 * lo) && roundsTo v (2 * hi) then
        if v - lo < hi - v then lo
        else if hi - v < v - lo then hi
        else if (lo / p) % 2 = 0 then lo else hi
      else if roundsTo v (2 * lo) then lo
      else if roundsTo v (2 * hi) then hi
      else shortestDecimal v fuel (k + 1)

def dropTrailingZeros (digits : List Char) : List Char :=
  (digits.reverse.dropWhile (fun c => c = '0')).reverse

/-- The text of a non-negative Number, `Number::toString`: plain decimal below
2^53; above that the shortest digits that round to the Number, followed by
zeros below 10^21 and in exponent form from 10^21 on. -/
def natToString (n : Nat) : String :=
  if n < 2 ^ 53 then toString n
  else if 2 ^ 1024 ≤ nearestDouble n then "Infinity"
  else
    let x := shortestDecimal (nearestDouble n) 17 1
    if x < 10 ^ 21 then toString x
    else
      let digits := Nat.toDigits 10 x
      match dropTrailingZeros digits with
      | [] => "0"
      | [c] => String.mk [c] ++ "e+" ++ toString (digits.length - 1)
      | c :: rest => String.mk (c :: '.' :: rest) ++ "e+" ++ toString (digits.length - 1)

/-- The text of an integer Number. -/
def numberToString (n : Int) : String :=
  if n < 0 then "-" ++ natToString n.natAbs else natToString n.natAbs

mutual
/-- The conversion `ToString(value)` used by string concatenation. A number
prints as `numberToString` gives; an array prints its items joined by commas; a
plain object prints as `[object Object]`, unless it has an own `toString`
property, which for parsed data is not callable. -/
def JSValue.toStr : JSValue → Except JSError String
  | .undefined => .ok "undefined"
  | .null => .ok "null"
  | .bool b => .ok (if b then "true" else "false")
  | .number n => .ok (numberToString n)
  | .string s => .ok s
  | .array items => JSValue.joinItems items
  | .object fields =>
    if hasField fields "toString" then
      .error (.typeError "Cannot convert object to primitive value")
    else .ok "[object Object]"
/-- The method `Array.prototype.join` with the comma separator. -/
def JSValue.joinItems : List JSValue → Except JSError String
  | [] => .ok ""
  | [.undefined] => .ok ""
  | [.null] => .ok ""
  | [v] => JSValue.toStr v
  | .undefined :: rest => (JSValue.joinItems rest).map (fun t => "," ++ t)
  | .null :: rest => (JSValue.joinItems rest).map (fun t => "," ++ t)
  | v :: rest =>
    match JSValue.toStr v with
    | .error e => .error e
    | .ok t => (JSValue.joinItems rest).map (fun u => t ++ "," ++ u)
end

/-- The expression `text + value` with a string on the left. -/
def stringPlus (text : String) (value : JSValue) : Except JSError String :=
  (value.toStr).map (fun t => text ++ t)

/-- Run a pure step that may throw. -/
def Eff.ofExcept {α : Type} (r : Except JSError α) : Eff α := fun s => (r, s)

/-! ## The class `BilibiliDanmakuSource` -/

def BATCH_RECONNECT_DELAY : Nat := 1000 * 10

/-- The constructor, as far as the pool is concerned: an empty `liveList`, and
the protocol set to `ws` unless the configured value is the string `ws` or
`tcp`. -/
def newSource (bilibiliProtocol : JSValue) : Source :=
  let empty : Source :=
    { bilibiliProtocol := .ws, liveList := [], conns := [], calls := [], log := [], sent := [] }
  match bilibiliProtocol with
  | .string p =>
    if p ≠ "ws" ∧ p ≠ "tcp" then
      { empty with
        log := [⟨.info, "Bilibili Danmaku Source configuration didn\x27t specify protocol type. Set to ws as default."⟩] }
    else if p = "tcp" then { empty with bilibiliProtocol := .tcp }
    else empty
  | _ =>
    { empty with
      log := [⟨.info, "Bilibili Danmaku Source configuration didn\x27t specify protocol type. Set to ws as default."⟩] }

/-- The method `isConnected(roomId)`: the value of `entity && entity.live`,
which is `undefined` (here `none`) without an entry and the connection object
stored in the entry otherwise. -/
def isConnected (roomId : RoomId) : Eff (Option Handle) := fun s =>
  match getEntity s.liveList roomId with
  | none => (.ok none, s)
  | some entity => (.ok (some entity.live), s)

/-- Truthiness of the value returned by `isConnected`: `undefined` is falsy,
every object is truthy. -/
def truthy : Option Handle → Bool
  | none => false
  | some _ => true

/-- The handler registered for the `live` signal. -/
def onLive (roomId : RoomId) : Eff Unit :=
  loggerDebug ("Connected to live room: " ++ toString roomId)

/-- The handler registered for `DANMU_MSG`. -/
def onDanmuMsg (roomId : RoomId) (data : JSValue) : Eff Unit := do
  let dmInfo ← Eff.ofExcept (data.getProp (.name "info"))
  let dmSenderInfo ← Eff.ofExcept (dmInfo.getProp (.index 2))
  let dmSenderUid ← Eff.ofExcept (dmSenderInfo.getProp (.index 0))
  let dmSenderUsername ← Eff.ofExcept (dmSenderInfo.getProp (.index 1))
  let dmSenderUrl ← Eff.ofExcept (stringPlus "https://space.bilibili.com/" dmSenderUid)
  let dmText ← Eff.ofExcept (dmInfo.getProp (.index 1))
  let dmTimestamp ← Eff.ofExcept
    ((dmInfo.getProp (.index 9)).bind (fun v => v.getProp (.name "ts")))
  let danmaku : Danmaku :=
    { sender := { uid := dmSenderUid, username := dmSenderUsername, url := dmSenderUrl },
      text := dmText,
      timestamp := dmTimestamp,
      roomId := roomId }
  sendDanmaku danmaku

/-- The handler registered for `error`. -/
def onError (roomId : RoomId) (e : JSError) : Eff Unit :=
  Eff.modify fun s => { s with log := s.log ++
    [⟨.error, "BilibiliDanmakuSource roomId=" ++ toString roomId ++ " error: " ++ e.text⟩] }

/-- The method `createLive(roomId)`. The three handlers it registers are
`onLive`, `onDanmuMsg` and `onError` for this `roomId`; the connection object
remembers the room it was made for. -/
def createLive (env : Env) (roomId : RoomId) : Eff Handle := do
  let s ← Eff.get
  let live ←
    if s.bilibiliProtocol = .ws then newKeepLive env .ws roomId
    else newKeepLive env .tcp roomId
  pure live

/-- The read `const entity = this.liveList[roomId]` followed by a use of a
property of `entity`. -/
def readEntity (roomId : RoomId) : Eff Entity := fun s =>
  match getEntity s.liveList roomId with
  | none => (.error (.typeError "Cannot read properties of undefined"), s)
  | some entity => (.ok entity, s)

/-- A write to `liveList[roomId]`: the assignment of a new entity object, or
the update of a property of the entity object stored there. -/
def storeEntity (roomId : RoomId) (entity : Entity) : Eff Unit :=
  Eff.modify fun s => { s with liveList := setEntity s.liveList roomId entity }

/-- The method `onJoin(roomId)`. -/
def onJoin (env : Env) (roomId : RoomId) : Eff Unit := do
  superOnJoin roomId
  if truthy (← isConnected roomId) then
    -- this.liveList[roomId].counter++
    let entity ← readEntity roomId
    storeEntity roomId { entity with counter := entity.counter + 1 }
  else
    Eff.tryCatchJS
      (do
        let live ← createLive env roomId
        storeEntity roomId { live := live, counter := 1 })
      (fun e => loggerError e)

/-- The method `onLeave(roomId)`. -/
def onLeave (env : Env) (roomId : RoomId) : Eff Unit := do
  superOnLeave roomId
  if !truthy (← isConnected roomId) then
    pure ()
  else
    Eff.tryCatchJS
      (do
        let entity ← readEntity roomId
        -- entity.counter--
        let entity : Entity := { entity with counter := entity.counter - 1 }
        storeEntity roomId entity
        if entity.counter ≤ 0 then
          loggerDebug ("Room " ++ toString roomId ++ " is no longer used. Close now.")
          liveClose env entity.live
          -- delete this.liveList[roomId]
          Eff.modify fun s => { s with liveList := deleteEntity s.liveList roomId }
        else
          pure ())
      (fun e => loggerError e)

/-- The method `onReconnect(roomId)`. -/
def onReconnect (env : Env) (roomId : RoomId) : Eff Unit := do
  superOnReconnect roomId
  if !truthy (← isConnected roomId) then
    pure ()
  else
    Eff.tryCatchJS
      (do
        let entity ← readEntity roomId
        liveClose env entity.live
        -- entity.live = this.createLive(roomId)
        let live ← createLive env roomId
        storeEntity roomId { entity with live := live })
      (fun e => loggerError e)

/-! ## Events of a connection object -/

/-- The provider emits the `live` signal on a connection object: the object is
ready from then on, and the handler registered by `createLive` runs. -/
def emitLive (live : Handle) : Eff Unit := fun s =>
  match s.conns[live]? with
  | none => (.ok (), s)
  | some c => onLive c.roomId { s with conns := markReady s.conns live }

/-- The provider emits `DANMU_MSG` with payload `data` on a connection object:
the handler registered by `createLive` for the room of that object runs. -/
def emitDanmuMsg (live : Handle) (data : JSValue) : Eff Unit := fun s =>
  match s.conns[live]? with
  | none => (.ok (), s)
  | some c => onDanmuMsg c.roomId data s

/-- Whether a connection object has completed its handshake and has not been
closed. -/
def connectionLive (s : Source) (live : Handle) : Bool :=
  match s.conns[live]? with
  | none => false
  | some c => c.ready && !c.closed

/-- The truthiness of `isConnected(roomId)` in a state, as its callers test
it. -/
def isConnectedIn (s : Source) (roomId : RoomId) : Bool :=
  match (isConnected roomId s).1 with
  | .ok v => truthy v
  | .error _ => false

/-- The profile addresses of the records passed to `sendDanmaku` so far. -/
def sentUrls (s : Source) : List String :=
  s.sent.map (fun d => d.sender.url)

/-! ## Sequences of lifecycle calls -/

inductive Operation where
  | join (roomId : RoomId)
  | leave (roomId : RoomId)
  | reconnect (roomId : RoomId)
  deriving DecidableEq, Repr

def perform (env : Env) : Operation → Eff Unit
  | .join roomId => onJoin env roomId
  | .leave roomId => onLeave env roomId
  | .reconnect roomId => onReconnect env roomId

/-- The state after one call, made in the given environment. -/
def step (s : Source) (c : Env × Operation) : Source :=
  (perform c.1 c.2 s).2

/-- The state after a sequence of calls, each with its own environment. -/
def run (s : Source) (cs : List (Env × Operation)) : Source :=
  cs.foldl step s

/-- A subscriber event on one room. -/
inductive Turn where
  | join
  | leave
  deriving DecidableEq, Repr

def Turn.toOperation (roomId : RoomId) : Turn → Operation
  | .join => .join roomId
  | .leave => .leave roomId

/-- The state after a sequence of `onJoin`/`onLeave` calls on one room during
which neither creation nor close fails. -/
def runJoinLeave (roomId : RoomId) (s : Source) (ts : List Turn) : Source :=
  run s (ts.map (fun t => (Env.ok, t.toOperation roomId)))

def joins : List Turn → Nat
  | [] => 0
  | .join :: ts => joins ts + 1
  | .leave :: ts => joins ts

def leaves : List Turn → Nat
  | [] => 0
  | .join :: ts => leaves ts
  | .leave :: ts => leaves ts + 1

/-- One step of the count of outstanding joins: a join adds one, a leave
cancels one outstanding join and is ignored when there is none. -/
def outstandingStep (n : Nat) : Turn → Nat
  | .join => n + 1
  | .leave => n - 1

/-- The number of joins of the sequence not yet matched by a later leave. -/
def outstanding (ts : List Turn) : Nat :=
  ts.foldl outstandingStep 0

/-- The state after `n` consecutive `onJoin(roomId)` calls in environment
`env`. -/
def joinTimes (env : Env) (roomId : RoomId) : Nat → Source → Source
  | 0, s => s
  | n + 1, s => (onJoin env roomId (joinTimes env roomId n s)).2

/-- The sample payload: sender 42 named alice, text hi, timestamp 1000. -/
def samplePayload : JSValue :=
  .object [("cmd", .string "DANMU_MSG"),
    ("info", .array [
      .array [], .string "hi", .array [.number 42, .string "alice"],
      .array [], .array [], .array [], .number 0, .string "", .number 0,
      .object [("ts", .number 1000), ("ct", .string "")]])]

/-- A payload like the sample one whose `info` array stops before index 9. -/
def payloadWithoutInfo9 : JSValue :=
  .object [("cmd", .string "DANMU_MSG"),
    ("info", .array [
      .array [], .string "hi", .array [.number 42, .string "alice"],
      .array [], .array [], .array [], .number 0, .string "", .number 0])]

/-- A payload like the sample one whose `info[9]` has no `ts` property. -/
def payloadWithoutTs : JSValue :=
  .object [("cmd", .string "DANMU_MSG"),
    ("info", .array [
      .array [], .string "hi", .array [.number 42, .string "alice"],
      .array [], .array [], .array [], .number 0, .string "", .number 0,
      .object [("ct", .string "")]])]

/-- A payload like the sample one whose `info[9]` is `null`. -/
def payloadWithNull9 : JSValue :=
  .object [("cmd", .string "DANMU_MSG"),
    ("info", .array [
      .array [], .string "hi", .array [.number 42, .string "alice"],
      .array [], .array [], .array [], .number 0, .string "", .number 0,
      .null])]

/-- Whether a completion is a thrown TypeError, whatever its message. -/
def threwTypeError {α : Type} : Except JSError α → Bool
  | .error (.typeError _) => true
  | _ => false

/-- For each record passed to `sendDanmaku` so far, whether its timestamp is
`undefined`. -/
def sentWithoutTimestamp (s : Source) : List Bool :=
  s.sent.map (fun d => match d.timestamp with
    | .undefined => true
    | _ => false)

/-- What the handler reads from a payload apart from the timestamp:
`data.info[2][0]` is the integer `uid` (below 2^53 in magnitude),
`data.info[2][1]` is `username`, `data.info[1]` is `text`, and `data.info[9]`
is `slot9`, which is `undefined` when the payload has no `info[9]`. -/
def PayloadReads (data : JSValue) (uid : Int) (username text slot9 : JSValue) : Prop :=
  ∃ info senderInfo : JSValue,
    data.getProp (.name "info") = .ok info ∧
    info.getProp (.index 2) = .ok senderInfo ∧
    senderInfo.getProp (.index 0) = .ok (.number uid) ∧
    (-2 ^ 53 < uid ∧ uid < 2 ^ 53) ∧
    senderInfo.getProp (.index 1) = .ok username ∧
    info.getProp (.index 1) = .ok text ∧
    info.getProp (.index 9) = .ok slot9

/-! ## The batch reconnect task -/

/-- The room an operation is called with. -/
def Operation.roomId : Operation → RoomId
  | .join roomId => roomId
  | .leave roomId => roomId
  | .reconnect roomId => roomId

/-- Whether the property key of a room is an array index (an integer from 0 to
2^32 - 2): such keys are enumerated first, in ascending order. -/
def isArrayIndex (roomId : RoomId) : Bool :=
  decide (0 ≤ roomId ∧ roomId < 2 ^ 32 - 1)

/-- The enumeration `Object.keys(this.liveList)` followed by `Number(roomId)` on
each key: array-index keys in ascending order, then the other keys in the order
in which the properties were created. -/
def objectKeys (l : List (RoomId × Entity)) : List RoomId :=
  ((l.map Prod.fst).filter isArrayIndex).insertionSort (fun a b => a ≤ b) ++
    (l.map Prod.fst).filter (fun k => !isArrayIndex k)

/-- What the batch task does, in order: a call `this.onReconnect(roomId)` or a
call `delay(ms)`. -/
inductive BatchEvent where
  | reconnect (roomId : RoomId)
  | delay (ms : Nat)
  deriving DecidableEq, Repr

/-- The source together with the record of what the batch task has done. -/
structure BatchState where
  source : Source
  trace : List BatchEvent

/-- Modelled from the spec: the helper `delay` of `./util`, which is not among
the sources. The task waits the given number of milliseconds; the calls that
the subscriber transport makes in the meantime (`during`) run on the source
before the task goes on. -/
def delay (ms : Nat) (during : List (Env × Operation)) (b : BatchState) : BatchState :=
  { source := run b.source during, trace := b.trace ++ [.delay ms] }

/-- The loop of `batchReconnect` over the keys of the snapshot still to do.
Iteration `i` calls `onReconnect` in the environment `(sched i).1`, and the
calls `(sched i).2` arrive during its delay. An exception ends the task. -/
def batchLoop (sched : Nat → Env × List (Env × Operation)) :
    List RoomId → Nat → BatchState → Except JSError Unit × BatchState
  | [], _, b => (.ok (), b)
  | roomId :: rest, i, b =>
    match onReconnect (sched i).1 roomId b.source with
    | (.error e, s1) => (.error e, { source := s1, trace := b.trace ++ [.reconnect roomId] })
    | (.ok _, s1) =>
      batchLoop sched rest (i + 1)
        (delay BATCH_RECONNECT_DELAY (sched i).2
          { source := s1, trace := b.trace ++ [.reconnect roomId] })

/-- The method `batchReconnect()`: the keys are enumerated once, before the
loop. -/
def batchReconnect (sched : Nat → Env × List (Env × Operation)) (s : Source) :
    Except JSError Unit × BatchState :=
  let s1 := (loggerDebug "Start batch reconnect task" s).2
  batchLoop sched (objectKeys s1.liveList) 0 { source := s1, trace := [] }

/-- The record of a task that reconnects the given rooms in order, each call
followed by the batch delay. -/
def batchTrace : List RoomId → List BatchEvent
  | [] => []
  | roomId :: rest => .reconnect roomId :: .delay BATCH_RECONNECT_DELAY :: batchTrace rest

/-- The calls that reach the source during a batch task over the given keys, in
order: for iteration `i`, the `onReconnect` call of the task on its key, then
the calls that arrive during the delay of that iteration. -/
def batchCalls (sched : Nat → Env × List (Env × Operation)) :
    List RoomId → Nat → List (Env × Operation)
  | [], _ => []
  | roomId :: rest, i =>
    ((sched i).1, .reconnect roomId) :: ((sched i).2 ++ batchCalls sched rest (i + 1))

/-- A schedule for the batch task in which nothing fails and `onJoin(9)` arrives
during the first delay. -/
def sampleSchedule : Nat → Env × List (Env × Operation)
  | 0 => (Env.ok, [(Env.ok, .join 9)])
  | _ => (Env.ok, [])

/-- A source with entries for rooms 30, 10 and 20, joined in that order. -/
def sampleSource : Source :=
  run (newSource (.string "ws")) [(Env.ok, .join 30), (Env.ok, .join 10), (Env.ok, .join 20)]

/-! ## The no-leak invariant -/

/-- The no-leak condition on a lookup of entries and the connection objects
made so far: every entry has counter at least 1 and holds a connection object
that exists and is not closed; every connection object that is not closed is
held by some entry; and no connection object is held by the entries of two
rooms. -/
def NoLeakOn (f : RoomId → Option Entity) (conns : List Conn) : Prop :=
  (∀ r e, f r = some e → 1 ≤ e.counter ∧ ∃ c, conns[e.live]? = some c ∧ c.closed = false) ∧
  (∀ h c, conns[h]? = some c → c.closed = false → ∃ r e, f r = some e ∧ e.live = h) ∧
  (∀ r1 r2 e1 e2, f r1 = some e1 → f r2 = some e2 → e1.live = e2.live → r1 = r2)

/-- The no-leak condition in a state of the source. -/
def NoLeak (s : Source) : Prop :=
  NoLeakOn (getEntity s.liveList) s.conns

/-- The state reached from a new source by a sequence of lifecycle calls during
which neither creation nor close fails. -/
def runOk (bilibiliProtocol : JSValue) (ops : List Operation) : Source :=
  run (newSource bilibiliProtocol) (ops.map (fun op => (Env.ok, op)))

/-- The state reached from a new source by a sequence of lifecycle calls during
which close never fails; each call says whether the connection constructor
throws during it. -/
def runCloseOk (bilibiliProtocol : JSValue) (cs : List (Bool × Operation)) : Source :=
  run (newSource bilibiliProtocol)
    (cs.map (fun c => (({ createThrows := c.1, closeThrows := false } : Env), c.2)))

/-- Ownership of connection objects on a lookup of entries, with `n` connection
objects made so far: every entry holds an object that has been made, and no
object is held by the entries of two rooms. -/
def OwnedOn (f : RoomId → Option Entity) (n : Nat) : Prop :=
  (∀ r e, f r = some e → (e.live : Nat) < n) ∧
  (∀ r1 r2 e1 e2, f r1 = some e1 → f r2 = some e2 → e1.live = e2.live → r1 = r2)

/-- Ownership of connection objects in a state of the source. -/
def Owned (s : Source) : Prop :=
  OwnedOn (getEntity s.liveList) s.conns.length

/-! ## Basic facts about `liveList` and the provider -/

theorem numberToString_safe (n : Int) (h : -2 ^ 53 < n ∧ n < 2 ^ 53) :
    numberToString n = toString n := by
  cases n with
  | ofNat m =>
    have hm : m < 2 ^ 53 := by
      have := h.2
      simp only [Int.ofNat_eq_coe] at this
      exact_mod_cast this
    have hnn : ¬ ((m : Int) < 0) := by omega
    simp only [numberToString, Int.ofNat_eq_coe, hnn, if_false, Int.natAbs_ofNat, natToString,
      hm, if_true]
    rfl
  | negSucc m =>
    have hm : m + 1 < 2 ^ 53 := by
      have := h.1
      rw [Int.negSucc_eq] at this
      omega
    have hneg : Int.negSucc m < 0 := Int.negSucc_lt_zero m
    simp only [numberToString, hneg, if_true, Int.natAbs_negSucc, natToString, hm]
    rfl

theorem getEntity_setEntity_same (l : List (RoomId × Entity)) (r : RoomId) (e : Entity) :
    getEntity (setEntity l r e) r = some e := by
  induction l with
  | nil => simp [setEntity, getEntity]
  | cons p rest ih =>
    obtain ⟨k, v⟩ := p
    by_cases h : k = r
    · simp [setEntity, getEntity, h]
    · simp [setEntity, getEntity, h, ih]

theorem getEntity_setEntity_other (l : List (RoomId × Entity)) (r r2 : RoomId) (e : Entity)
    (hne : r2 ≠ r) : getEntity (setEntity l r e) r2 = getEntity l r2 := by
  induction l with
  | nil =>
    have : ¬ r = r2 := fun h => hne h.symm
    simp [setEntity, getEntity, this]
  | cons p rest ih =>
    obtain ⟨k, v⟩ := p
    by_cases h : k = r
    · have : ¬ r = r2 := fun h => hne h.symm
      simp [setEntity, getEntity, h, this]
    · by_cases h2 : k = r2
      · subst h2
        simp [setEntity, getEntity, h]
      · simp [setEntity, getEntity, h, h2, ih]

theorem getEntity_deleteEntity_same (l : List (RoomId × Entity)) (r : RoomId) :
    getEntity (deleteEntity l r) r = none := by
  induction l with
  | nil => simp [deleteEntity, getEntity]
  | cons p rest ih =>
    obtain ⟨k, v⟩ := p
    by_cases h : k = r
    · simpa [deleteEntity, h] using ih
    · simpa [deleteEntity, getEntity, h] using ih

theorem getEntity_deleteEntity_other (l : List (RoomId × Entity)) (r r2 : RoomId)
    (hne : r2 ≠ r) : getEntity (deleteEntity l r) r2 = getEntity l r2 := by
  induction l with
  | nil => simp [deleteEntity, getEntity]
  | cons p rest ih =>
    obtain ⟨k, v⟩ := p
    by_cases h : k = r
    · subst h
      have h2 : ¬ k = r2 := fun h3 => hne h3.symm
      simpa [deleteEntity, getEntity, h2] using ih
    · by_cases h2 : k = r2
      · subst h2
        simp [deleteEntity, getEntity, h]
      · simpa [deleteEntity, getEntity, h, h2] using ih

theorem markClosed_length (cs : List Conn) (live : Handle) :
    (markClosed cs live).length = cs.length := by
  induction cs generalizing live with
  | nil => simp [markClosed]
  | cons c rest ih =>
    cases live with
    | zero => simp [markClosed]
    | succ n => simp [markClosed, ih]

theorem createLive_eq (env : Env) (r : RoomId) (s : Source) :
    createLive env r s = newKeepLive env s.bilibiliProtocol r s := by
  cases hp : s.bilibiliProtocol <;>
    simp [createLive, bind, pure, Eff.andThen, Eff.ret, Eff.get, hp, newKeepLive] <;>
    cases env.createThrows <;> simp

/-! ## The lifecycle operations, case by case -/

theorem onJoin_entry (env : Env) (r : RoomId) (s : Source) (e : Entity)
    (h : getEntity s.liveList r = some e) :
    onJoin env r s = (.ok (), { s with
      liveList := setEntity s.liveList r { e with counter := e.counter + 1 } }) := by
  simp [onJoin, superOnJoin, isConnected, readEntity, storeEntity, Eff.modify, truthy, h, bind,
    pure, Eff.andThen, Eff.ret]

theorem onJoin_fresh_ok (env : Env) (r : RoomId) (s : Source)
    (h : getEntity s.liveList r = none) (hc : env.createThrows = false) :
    onJoin env r s = (.ok (), { s with
      liveList := setEntity s.liveList r { live := s.conns.length, counter := 1 },
      conns := s.conns ++ [⟨r, s.bilibiliProtocol, false, false⟩],
      calls := s.calls ++ [.create r s.bilibiliProtocol (some s.conns.length)] }) := by
  simp [onJoin, superOnJoin, isConnected, truthy, h, bind, pure, Eff.andThen, Eff.ret,
    Eff.tryCatchJS, createLive_eq, newKeepLive, hc, Eff.modify, storeEntity]

theorem onJoin_fresh_throw (env : Env) (r : RoomId) (s : Source)
    (h : getEntity s.liveList r = none) (hc : env.createThrows = true) :
    onJoin env r s = (.ok (), { s with
      calls := s.calls ++ [.create r s.bilibiliProtocol none],
      log := s.log ++ [⟨.error, (JSError.connectionError r).text⟩] }) := by
  simp [onJoin, superOnJoin, isConnected, truthy, h, bind, pure, Eff.andThen, Eff.ret,
    Eff.tryCatchJS, createLive_eq, newKeepLive, hc, Eff.modify, loggerError]

theorem onLeave_absent (env : Env) (r : RoomId) (s : Source)
    (h : getEntity s.liveList r = none) : onLeave env r s = (.ok (), s) := by
  simp [onLeave, superOnLeave, isConnected, truthy, h, bind, pure, Eff.andThen, Eff.ret]

theorem onLeave_keep (env : Env) (r : RoomId) (s : Source) (e : Entity)
    (h : getEntity s.liveList r = some e) (hc : ¬ e.counter - 1 ≤ 0) :
    onLeave env r s = (.ok (), { s with
      liveList := setEntity s.liveList r { e with counter := e.counter - 1 } }) := by
  simp [onLeave, superOnLeave, isConnected, truthy, h, bind, pure, Eff.andThen, Eff.ret,
    Eff.tryCatchJS, readEntity, storeEntity, Eff.modify, getEntity_setEntity_same, hc]

theorem onLeave_last_ok (env : Env) (r : RoomId) (s : Source) (e : Entity)
    (h : getEntity s.liveList r = some e) (hc : e.counter - 1 ≤ 0)
    (hk : env.closeThrows = false) :
    onLeave env r s = (.ok (), { s with
      liveList := deleteEntity (setEntity s.liveList r { e with counter := e.counter - 1 }) r,
      conns := markClosed s.conns e.live,
      calls := s.calls ++ [.close e.live true],
      log := s.log ++
        [⟨.debug, "Room " ++ toString r ++ " is no longer used. Close now."⟩] }) := by
  simp [onLeave, superOnLeave, isConnected, truthy, h, bind, pure, Eff.andThen, Eff.ret,
    Eff.tryCatchJS, readEntity, storeEntity, getEntity_setEntity_same, hc, loggerDebug,
    Eff.modify, liveClose, hk]

theorem onLeave_last_throw (env : Env) (r : RoomId) (s : Source) (e : Entity)
    (h : getEntity s.liveList r = some e) (hc : e.counter - 1 ≤ 0)
    (hk : env.closeThrows = true) :
    onLeave env r s = (.ok (), { s with
      liveList := setEntity s.liveList r { e with counter := e.counter - 1 },
      calls := s.calls ++ [.close e.live false],
      log := s.log ++
        [⟨.debug, "Room " ++ toString r ++ " is no longer used. Close now."⟩,
         ⟨.error, (JSError.closeError e.live).text⟩] }) := by
  simp [onLeave, superOnLeave, isConnected, truthy, h, bind, pure, Eff.andThen, Eff.ret,
    Eff.tryCatchJS, readEntity, storeEntity, getEntity_setEntity_same, hc, loggerDebug,
    Eff.modify, liveClose, hk, loggerError]

theorem onReconnect_absent (env : Env) (r : RoomId) (s : Source)
    (h : getEntity s.liveList r = none) : onReconnect env r s = (.ok (), s) := by
  simp [onReconnect, superOnReconnect, isConnected, truthy, h, bind, pure, Eff.andThen,
    Eff.ret]

theorem onReconnect_ok (env : Env) (r : RoomId) (s : Source) (e : Entity)
    (h : getEntity s.liveList r = some e)
    (hk : env.closeThrows = false) (hc : env.createThrows = false) :
    onReconnect env r s = (.ok (), { s with
      liveList := setEntity s.liveList r { e with live := s.conns.length },
      conns := markClosed s.conns e.live ++ [⟨r, s.bilibiliProtocol, false, false⟩],
      calls := s.calls ++
        [.close e.live true, .create r s.bilibiliProtocol (some s.conns.length)] }) := by
  simp [onReconnect, superOnReconnect, isConnected, truthy, h, bind, pure, Eff.andThen,
    Eff.ret, Eff.tryCatchJS, readEntity, Eff.modify, liveClose, hk, createLive_eq, newKeepLive,
    hc, markClosed_length, storeEntity]

theorem onReconnect_close_throw (env : Env) (r : RoomId) (s : Source) (e : Entity)
    (h : getEntity s.liveList r = some e) (hk : env.closeThrows = true) :
    onReconnect env r s = (.ok (), { s with
      calls := s.calls ++ [.close e.live false],
      log := s.log ++ [⟨.error, (JSError.closeError e.live).text⟩] }) := by
  simp [onReconnect, superOnReconnect, isConnected, truthy, h, bind, pure, Eff.andThen,
    Eff.ret, Eff.tryCatchJS, readEntity, Eff.modify, liveClose, hk, loggerError]

theorem onReconnect_create_throw (env : Env) (r : RoomId) (s : Source) (e : Entity)
    (h : getEntity s.liveList r = some e)
    (hk : env.closeThrows = false) (hc : env.createThrows = true) :
    onReconnect env r s = (.ok (), { s with
      conns := markClosed s.conns e.live,
      calls := s.calls ++ [.close e.live true, .create r s.bilibiliProtocol none],
      log := s.log ++ [⟨.error, (JSError.connectionError r).text⟩] }) := by
  simp [onReconnect, superOnReconnect, isConnected, truthy, h, bind, pure, Eff.andThen,
    Eff.ret, Eff.tryCatchJS, readEntity, Eff.modify, liveClose, hk, createLive_eq, newKeepLive,
    hc, loggerError]

/-! ## Counting subscribers on one room -/

theorem step_join_count (r : RoomId) (s : Source) (n : Nat)
    (h : (n = 0 ∧ getEntity s.liveList r = none) ∨
      (0 < n ∧ ∃ live, getEntity s.liveList r = some ⟨live, (n : Int)⟩)) :
    ∃ live, getEntity (step s (Env.ok, Operation.join r)).liveList r
      = some ⟨live, ((n + 1 : Nat) : Int)⟩ := by
  rcases h with ⟨hn, hnone⟩ | ⟨_, live, hsome⟩
  · refine ⟨s.conns.length, ?_⟩
    subst hn
    simp [step, perform, onJoin_fresh_ok Env.ok r s hnone rfl, getEntity_setEntity_same]
  · refine ⟨live, ?_⟩
    simp [step, perform, onJoin_entry Env.ok r s _ hsome, getEntity_setEntity_same]

theorem step_leave_count (r : RoomId) (s : Source) (n : Nat)
    (h : (n = 0 ∧ getEntity s.liveList r = none) ∨
      (0 < n ∧ ∃ live, getEntity s.liveList r = some ⟨live, (n : Int)⟩)) :
    (n - 1 = 0 ∧ getEntity (step s (Env.ok, Operation.leave r)).liveList r = none) ∨
      (0 < n - 1 ∧ ∃ live, getEntity (step s (Env.ok, Operation.leave r)).liveList r
        = some ⟨live, ((n - 1 : Nat) : Int)⟩) := by
  rcases h with ⟨hn, hnone⟩ | ⟨hpos, live, hsome⟩
  · left
    subst hn
    simp [step, perform, onLeave_absent Env.ok r s hnone, hnone]
  · by_cases h1 : n = 1
    · left
      subst h1
      have hc : (⟨live, ((1 : Nat) : Int)⟩ : Entity).counter - 1 ≤ 0 := by simp
      simp [step, perform, onLeave_last_ok Env.ok r s _ hsome hc rfl,
        getEntity_deleteEntity_same]
    · right
      have h2 : 2 ≤ n := by omega
      have hc : ¬ (⟨live, (n : Int)⟩ : Entity).counter - 1 ≤ 0 := by
        simp only [not_le]
        omega
      refine ⟨by omega, live, ?_⟩
      have hcast : ((n - 1 : Nat) : Int) = (n : Int) - 1 := by omega
      simp [step, perform, onLeave_keep Env.ok r s _ hsome hc, getEntity_setEntity_same, hcast]

theorem runJoinLeave_count (r : RoomId) (ts : List Turn) (s : Source) (n : Nat)
    (h : (n = 0 ∧ getEntity s.liveList r = none) ∨
      (0 < n ∧ ∃ live, getEntity s.liveList r = some ⟨live, (n : Int)⟩)) :
    (ts.foldl outstandingStep n = 0 ∧ getEntity (runJoinLeave r s ts).liveList r = none) ∨
      (0 < ts.foldl outstandingStep n ∧ ∃ live, getEntity (runJoinLeave r s ts).liveList r
        = some ⟨live, ((ts.foldl outstandingStep n : Nat) : Int)⟩) := by
  induction ts generalizing s n with
  | nil => simpa [runJoinLeave, run] using h
  | cons t rest ih =>
    cases t with
    | join =>
      have hstep := step_join_count r s n h
      have := ih (step s (Env.ok, Operation.join r)) (n + 1) (Or.inr ⟨by omega, hstep⟩)
      simpa [runJoinLeave, run, Turn.toOperation, outstandingStep] using this
    | leave =>
      have hstep := step_leave_count r s n h
      have := ih (step s (Env.ok, Operation.leave r)) (n - 1) hstep
      simpa [runJoinLeave, run, Turn.toOperation, outstandingStep] using this

theorem outstanding_balanced (ts : List Turn) (n : Nat)
    (h : ∀ k, leaves (ts.take k) ≤ n + joins (ts.take k)) :
    ts.foldl outstandingStep n + leaves ts = n + joins ts := by
  induction ts generalizing n with
  | nil => simp [leaves, joins]
  | cons t rest ih =>
    cases t with
    | join =>
      have := ih (n + 1) (fun k => by
        have hk := h (k + 1)
        simp [List.take, leaves, joins] at hk
        omega)
      simp [outstandingStep, leaves, joins] at this ⊢
      omega
    | leave =>
      have h1 := h 1
      simp [List.take, leaves, joins] at h1
      have := ih (n - 1) (fun k => by
        have hk := h (k + 1)
        simp [List.take, leaves, joins] at hk
        omega)
      simp [outstandingStep, leaves, joins] at this ⊢
      omega

theorem setEntity_setEntity_same (l : List (RoomId × Entity)) (r : RoomId) (e e2 : Entity) :
    setEntity (setEntity l r e) r e2 = setEntity l r e2 := by
  induction l with
  | nil => simp [setEntity]
  | cons p rest ih =>
    obtain ⟨k, v⟩ := p
    by_cases h : k = r
    · simp [setEntity, h]
    · simp [setEntity, h, ih]

theorem joinTimes_succ (env : Env) (s : Source) (r : RoomId) (n : Nat)
    (hnone : getEntity s.liveList r = none) (hcreate : env.createThrows = false) :
    joinTimes env r (n + 1) s = { s with
      liveList := setEntity s.liveList r ⟨s.conns.length, ((n + 1 : Nat) : Int)⟩,
      conns := s.conns ++ [⟨r, s.bilibiliProtocol, false, false⟩],
      calls := s.calls ++ [.create r s.bilibiliProtocol (some s.conns.length)] } := by
  induction n with
  | zero => simp [joinTimes, onJoin_fresh_ok env r s hnone hcreate]
  | succ n ih =>
    have hsome : getEntity (joinTimes env r (n + 1) s).liveList r
        = some ⟨s.conns.length, ((n + 1 : Nat) : Int)⟩ := by
      rw [ih]
      exact getEntity_setEntity_same _ _ _
    rw [joinTimes, onJoin_entry env r _ _ hsome, ih]
    simp [setEntity_setEntity_same]

/-! ## The claims -/

/-- C1, as amended. For every finite sequence of onJoin/onLeave calls on one
room, starting from an empty pool and with creation and close never failing, the
subscriber count of the room equals the number of outstanding joins, where an
onLeave made while the room has no entry is ignored, and the room has an entry
iff that number is positive. Whenever no initial part of the sequence has more
leaves than joins, the number is max(0, joins - leaves). -/
theorem C1_count_is_outstanding (s : Source) (r : RoomId) (ts : List Turn)
    (hempty : s.liveList = []) :
    subscriberCount (runJoinLeave r s ts) r = (outstanding ts : Int) ∧
    (hasEntry (runJoinLeave r s ts) r = true ↔ 0 < outstanding ts) ∧
    ((∀ k, leaves (ts.take k) ≤ joins (ts.take k)) →
      (outstanding ts : Int) = max 0 ((joins ts : Int) - (leaves ts : Int))) := by
  have hstart : (0 = 0 ∧ getEntity s.liveList r = none) ∨
      (0 < 0 ∧ ∃ live, getEntity s.liveList r = some ⟨live, ((0 : Nat) : Int)⟩) := by
    left
    simp [hempty, getEntity]
  have hrun := runJoinLeave_count r ts s 0 hstart
  refine ⟨?_, ?_, ?_⟩
  · rcases hrun with ⟨h0, hnone⟩ | ⟨_, live, hsome⟩
    · simp [subscriberCount, hnone, outstanding, h0]
    · simp [subscriberCount, hsome, outstanding]
  · rcases hrun with ⟨h0, hnone⟩ | ⟨hpos, live, hsome⟩
    · simp [hasEntry, hnone, outstanding, h0]
    · simp [hasEntry, hsome, outstanding, hpos]
  · intro hbal
    have := outstanding_balanced ts 0 (fun k => by simpa using hbal k)
    have h2 : leaves ts ≤ joins ts := by simpa using hbal ts.length
    simp only [outstanding]
    rw [max_eq_right (by omega)]
    omega

/-- Witness for C1: two joins and a leave on room 7 of a new source leave one
subscriber. -/
theorem C1_count_is_outstanding_witness :
    (newSource (.string "ws")).liveList = [] ∧
    subscriberCount (runJoinLeave 7 (newSource (.string "ws")) [.join, .join, .leave]) 7
      = (outstanding [.join, .join, .leave] : Int) ∧
    (hasEntry (runJoinLeave 7 (newSource (.string "ws")) [.join, .join, .leave]) 7 = true
      ↔ 0 < outstanding [.join, .join, .leave]) ∧
    (outstanding [.join, .join, .leave] : Int)
      = max 0 ((joins [.join, .join, .leave] : Int) - (leaves [.join, .join, .leave] : Int)) :=
  have h := C1_count_is_outstanding (newSource (.string "ws")) 7 [.join, .join, .leave] rfl
  ⟨rfl, h.1, h.2.1, h.2.2 (fun k => by
    match k with
    | 0 => decide
    | 1 => decide
    | 2 => decide
    | k + 3 => simp [List.take, leaves, joins])⟩

/-- Counterexample to C1 as stated: after onLeave then onJoin on room 7 of a new
source the counter is 1 and the entry exists, while max(0, joins - leaves) is
0. -/
theorem C1_counterexample :
    subscriberCount (runJoinLeave 7 (newSource (.string "ws")) [.leave, .join]) 7 = 1 ∧
    hasEntry (runJoinLeave 7 (newSource (.string "ws")) [.leave, .join]) 7 = true ∧
    max 0 ((joins [.leave, .join] : Int) - (leaves [.leave, .join] : Int)) = 0 ∧
    subscriberCount (runJoinLeave 7 (newSource (.string "ws")) [.leave, .join]) 7
      ≠ max 0 ((joins [.leave, .join] : Int) - (leaves [.leave, .join] : Int)) := by
  decide

/-- C2. In a state where the room has an entry with connection `live` and
counter `c`, and close does not fail, onLeave closes the connection (one close
call, on `live`) and removes the entry iff c - 1 <= 0; when c >= 2 it makes no
call to the provider, leaves the connection objects as they are, and leaves the
entry with the same connection and counter exactly c - 1. -/
theorem C2_onLeave_closes_iff_last (env : Env) (s : Source) (r : RoomId) (live : Handle)
    (c : Int) (hentry : getEntity s.liveList r = some ⟨live, c⟩)
    (hclose : env.closeThrows = false) :
    (((onLeave env r s).2.calls = s.calls ++ [.close live true] ∧
        (onLeave env r s).2.conns = markClosed s.conns live ∧
        getEntity (onLeave env r s).2.liveList r = none) ↔ c - 1 ≤ 0) ∧
    (2 ≤ c →
      (onLeave env r s).2.calls = s.calls ∧
      (onLeave env r s).2.conns = s.conns ∧
      getEntity (onLeave env r s).2.liveList r = some ⟨live, c - 1⟩) := by
  by_cases hc : c - 1 ≤ 0
  · have hc2 : (⟨live, c⟩ : Entity).counter - 1 ≤ 0 := hc
    rw [onLeave_last_ok env r s _ hentry hc2 hclose]
    refine ⟨?_, ?_⟩
    · simp [hc, getEntity_deleteEntity_same]
    · intro h2
      omega
  · have hc2 : ¬ (⟨live, c⟩ : Entity).counter - 1 ≤ 0 := hc
    rw [onLeave_keep env r s _ hentry hc2]
    refine ⟨?_, ?_⟩
    · simp [hc, getEntity_setEntity_same]
    · intro _
      simp [getEntity_setEntity_same]

/-- Witness for C2: room 7 joined twice, then one onLeave. -/
theorem C2_onLeave_closes_iff_last_witness :
    (((onLeave Env.ok 7 (joinTimes Env.ok 7 2 (newSource (.string "ws")))).2.calls
          = (joinTimes Env.ok 7 2 (newSource (.string "ws"))).calls ++ [.close 0 true] ∧
        (onLeave Env.ok 7 (joinTimes Env.ok 7 2 (newSource (.string "ws")))).2.conns
          = markClosed (joinTimes Env.ok 7 2 (newSource (.string "ws"))).conns 0 ∧
        getEntity (onLeave Env.ok 7 (joinTimes Env.ok 7 2 (newSource (.string "ws")))).2.liveList 7
          = none) ↔ (2 : Int) - 1 ≤ 0) ∧
    ((2 : Int) ≤ 2 →
      (onLeave Env.ok 7 (joinTimes Env.ok 7 2 (newSource (.string "ws")))).2.calls
        = (joinTimes Env.ok 7 2 (newSource (.string "ws"))).calls ∧
      (onLeave Env.ok 7 (joinTimes Env.ok 7 2 (newSource (.string "ws")))).2.conns
        = (joinTimes Env.ok 7 2 (newSource (.string "ws"))).conns ∧
      getEntity (onLeave Env.ok 7 (joinTimes Env.ok 7 2 (newSource (.string "ws")))).2.liveList 7
        = some ⟨0, 2 - 1⟩) :=
  C2_onLeave_closes_iff_last Env.ok (joinTimes Env.ok 7 2 (newSource (.string "ws"))) 7 0 2
    (by decide) rfl

/-- C3. For every n >= 1 and every room with no entry, n consecutive onJoin
calls with creation not failing make exactly one call to the provider, the
creation made by the first call; the entry then holds the handle returned by
that creation with counter n, and the next onJoin is a pure increment: it
returns normally and changes nothing but the counter, to n + 1. -/
theorem C3_joins_create_once (env : Env) (s : Source) (r : RoomId) (n : Nat)
    (hnone : getEntity s.liveList r = none) (hcreate : env.createThrows = false)
    (hn : 1 ≤ n) :
    (joinTimes env r 1 s).calls
      = s.calls ++ [.create r s.bilibiliProtocol (some s.conns.length)] ∧
    (joinTimes env r n s).calls = (joinTimes env r 1 s).calls ∧
    (joinTimes env r n s).conns = (joinTimes env r 1 s).conns ∧
    getEntity (joinTimes env r n s).liveList r = some ⟨s.conns.length, (n : Int)⟩ ∧
    onJoin env r (joinTimes env r n s) = (.ok (), { joinTimes env r n s with
      liveList := setEntity (joinTimes env r n s).liveList r ⟨s.conns.length, (n : Int) + 1⟩ }) := by
  obtain ⟨m, rfl⟩ : ∃ m, n = m + 1 := ⟨n - 1, by omega⟩
  have hsome : getEntity (joinTimes env r (m + 1) s).liveList r
      = some ⟨s.conns.length, ((m + 1 : Nat) : Int)⟩ := by
    rw [joinTimes_succ env s r m hnone hcreate]
    exact getEntity_setEntity_same _ _ _
  refine ⟨?_, ?_, ?_, hsome, ?_⟩
  · rw [joinTimes_succ env s r 0 hnone hcreate]
  · rw [joinTimes_succ env s r m hnone hcreate, joinTimes_succ env s r 0 hnone hcreate]
  · rw [joinTimes_succ env s r m hnone hcreate, joinTimes_succ env s r 0 hnone hcreate]
  · rw [onJoin_entry env r _ _ hsome]

/-- Witness for C3: two joins on the unopened room 7 make one creation and
leave counter 2. -/
theorem C3_joins_create_once_witness :
    (joinTimes Env.ok 7 2 (newSource (.string "ws"))).calls = [.create 7 .ws (some 0)] ∧
    getEntity (joinTimes Env.ok 7 2 (newSource (.string "ws"))).liveList 7 = some ⟨0, 2⟩ :=
  have h := C3_joins_create_once Env.ok (newSource (.string "ws")) 7 2 rfl rfl (by decide)
  ⟨h.2.1.trans h.1, h.2.2.2.1⟩

/-- C4. In a state where the room has an entry with connection `live` and
counter `c`, when close and creation both succeed, onReconnect makes exactly two
calls to the provider: one close, on `live`, then one creation for the same
room, which returns a handle not in use before; that handle becomes the
connection of the entry and the counter is still `c`. -/
theorem C4_onReconnect_replaces_handle (env : Env) (s : Source) (r : RoomId) (live : Handle)
    (c : Int) (hentry : getEntity s.liveList r = some ⟨live, c⟩)
    (hclose : env.closeThrows = false) (hcreate : env.createThrows = false) :
    (onReconnect env r s).2.calls = s.calls ++
      [.close live true, .create r s.bilibiliProtocol (some s.conns.length)] ∧
    s.conns[s.conns.length]? = none ∧
    (onReconnect env r s).2.conns[s.conns.length]?
      = some ⟨r, s.bilibiliProtocol, false, false⟩ ∧
    getEntity (onReconnect env r s).2.liveList r = some ⟨s.conns.length, c⟩ := by
  rw [onReconnect_ok env r s _ hentry hclose hcreate]
  refine ⟨rfl, by simp, ?_, ?_⟩
  · have hlen : s.conns.length = (markClosed s.conns live).length :=
      (markClosed_length s.conns live).symm
    rw [hlen, List.getElem?_concat_length]
  · simp [getEntity_setEntity_same]

/-- Witness for C4: room 7 joined twice on a new source, then reconnected. -/
theorem C4_onReconnect_replaces_handle_witness :
    (onReconnect Env.ok 7 (joinTimes Env.ok 7 2 (newSource (.string "ws")))).2.calls
      = (joinTimes Env.ok 7 2 (newSource (.string "ws"))).calls ++
        [.close 0 true, .create 7 (joinTimes Env.ok 7 2 (newSource (.string "ws"))).bilibiliProtocol
          (some (joinTimes Env.ok 7 2 (newSource (.string "ws"))).conns.length)] ∧
    (joinTimes Env.ok 7 2 (newSource (.string "ws"))).conns[
      (joinTimes Env.ok 7 2 (newSource (.string "ws"))).conns.length]? = none ∧
    (onReconnect Env.ok 7 (joinTimes Env.ok 7 2 (newSource (.string "ws")))).2.conns[
      (joinTimes Env.ok 7 2 (newSource (.string "ws"))).conns.length]?
      = some ⟨7, (joinTimes Env.ok 7 2 (newSource (.string "ws"))).bilibiliProtocol, false, false⟩ ∧
    getEntity (onReconnect Env.ok 7 (joinTimes Env.ok 7 2 (newSource (.string "ws")))).2.liveList 7
      = some ⟨(joinTimes Env.ok 7 2 (newSource (.string "ws"))).conns.length, 2⟩ :=
  C4_onReconnect_replaces_handle Env.ok (joinTimes Env.ok 7 2 (newSource (.string "ws"))) 7 0 2
    (by decide) rfl rfl

/-- C5, the code at the failing input. Room 7 has an entry with counter 1;
onLeave during which close throws returns normally, but the entry is still
there afterwards, with counter 0 and the same connection, which was not
closed. -/
theorem C5_close_throw_keeps_entry :
    getEntity (joinTimes Env.ok 7 1 (newSource (.string "ws"))).liveList 7 = some ⟨0, 1⟩ ∧
    (onLeave ⟨false, true⟩ 7 (joinTimes Env.ok 7 1 (newSource (.string "ws")))).1 = .ok () ∧
    getEntity
      (onLeave ⟨false, true⟩ 7 (joinTimes Env.ok 7 1 (newSource (.string "ws")))).2.liveList 7
      = some ⟨0, 0⟩ ∧
    hasEntry (onLeave ⟨false, true⟩ 7 (joinTimes Env.ok 7 1 (newSource (.string "ws")))).2 7
      = true ∧
    (onLeave ⟨false, true⟩ 7 (joinTimes Env.ok 7 1 (newSource (.string "ws")))).2.conns
      = [⟨7, .ws, false, false⟩] := by
  refine ⟨by decide, rfl, by decide, by decide, by decide⟩

/-- C6. When the room has no entry and the connection constructor throws during
onJoin, liveList and the connection objects after the call are those before it,
so there is still no entry for the room; a following onJoin calls the
constructor again, and when that call succeeds the entry is created with the
new handle and counter 1. -/
theorem C6_failed_creation_leaves_pool (env env2 : Env) (s : Source) (r : RoomId)
    (hnone : getEntity s.liveList r = none) (hthrow : env.createThrows = true) :
    (onJoin env r s).2.liveList = s.liveList ∧
    (onJoin env r s).2.conns = s.conns ∧
    getEntity (onJoin env r s).2.liveList r = none ∧
    (onJoin env2 r (onJoin env r s).2).2.calls = (onJoin env r s).2.calls ++
      [.create r s.bilibiliProtocol (if env2.createThrows then none else some s.conns.length)] ∧
    (env2.createThrows = false →
      getEntity (onJoin env2 r (onJoin env r s).2).2.liveList r
        = some ⟨s.conns.length, 1⟩) := by
  have h1 := onJoin_fresh_throw env r s hnone hthrow
  have hnone2 : getEntity (onJoin env r s).2.liveList r = none := by
    rw [h1]
    exact hnone
  refine ⟨by rw [h1], by rw [h1], hnone2, ?_, ?_⟩
  · cases h2 : env2.createThrows
    · rw [onJoin_fresh_ok env2 r _ hnone2 h2, h1]
      simp
    · rw [onJoin_fresh_throw env2 r _ hnone2 h2, h1]
      simp
  · intro h2
    rw [onJoin_fresh_ok env2 r _ hnone2 h2, h1]
    simp [getEntity_setEntity_same]

/-- Witness for C6: on a new source the first onJoin(7) fails to create, the
second succeeds. -/
theorem C6_failed_creation_leaves_pool_witness :
    (onJoin ⟨true, false⟩ 7 (newSource (.string "ws"))).2.liveList = [] ∧
    getEntity
      (onJoin Env.ok 7 (onJoin ⟨true, false⟩ 7 (newSource (.string "ws"))).2).2.liveList 7
      = some ⟨0, 1⟩ :=
  have h := C6_failed_creation_leaves_pool ⟨true, false⟩ Env.ok (newSource (.string "ws")) 7
    rfl rfl
  ⟨h.1, h.2.2.2.2 rfl⟩

/-- C7. In every state, for every room and whatever the connection constructor
and close do (each may throw), onJoin, onLeave and onReconnect complete
normally: no exception reaches the caller. -/
theorem C7_lifecycle_never_throws (env : Env) (s : Source) (r : RoomId) :
    (onJoin env r s).1 = .ok () ∧
    (onLeave env r s).1 = .ok () ∧
    (onReconnect env r s).1 = .ok () := by
  cases hget : getEntity s.liveList r with
  | none =>
    refine ⟨?_, by rw [onLeave_absent env r s hget], by rw [onReconnect_absent env r s hget]⟩
    cases hc : env.createThrows
    · rw [onJoin_fresh_ok env r s hget hc]
    · rw [onJoin_fresh_throw env r s hget hc]
  | some e =>
    refine ⟨by rw [onJoin_entry env r s e hget], ?_, ?_⟩
    · by_cases hcnt : e.counter - 1 ≤ 0
      · cases hk : env.closeThrows
        · rw [onLeave_last_ok env r s e hget hcnt hk]
        · rw [onLeave_last_throw env r s e hget hcnt hk]
      · rw [onLeave_keep env r s e hget hcnt]
    · cases hk : env.closeThrows
      · cases hc : env.createThrows
        · rw [onReconnect_ok env r s e hget hk hc]
        · rw [onReconnect_create_throw env r s e hget hk hc]
      · rw [onReconnect_close_throw env r s e hget hk]

/-- C8, the code at the failing input. From a new source: onJoin(7), then two
onLeave(7) calls during each of which close throws. The entry of room 7 is
still there with counter -1. -/
theorem C8_counter_goes_negative :
    getEntity (run (newSource (.string "ws"))
      [(Env.ok, .join 7), (⟨false, true⟩, .leave 7), (⟨false, true⟩, .leave 7)]).liveList 7
      = some ⟨0, -1⟩ ∧
    subscriberCount (run (newSource (.string "ws"))
      [(Env.ok, .join 7), (⟨false, true⟩, .leave 7), (⟨false, true⟩, .leave 7)]) 7 < 0 := by
  decide

/-- C9, as amended. isConnected(room) is truthy iff liveList has an entry for
the room. It reads nothing of the connection object: the answer is the same
whatever the connection objects are, it is not changed by the live signal, and
the call changes no state. -/
theorem C9_isConnected_iff_entry (s : Source) (r : RoomId) :
    (isConnectedIn s r = true ↔ hasEntry s r = true) ∧
    (∀ conns : List Conn, isConnectedIn { s with conns := conns } r = isConnectedIn s r) ∧
    (∀ live : Handle, isConnectedIn (emitLive live s).2 r = isConnectedIn s r) ∧
    (isConnected r s).2 = s := by
  refine ⟨?_, ?_, ?_, ?_⟩
  · cases h : getEntity s.liveList r <;> simp [isConnectedIn, isConnected, hasEntry, truthy, h]
  · intro conns
    cases h : getEntity s.liveList r <;> simp [isConnectedIn, isConnected, truthy, h]
  · intro live
    cases hc : s.conns[live]? <;>
      cases h : getEntity s.liveList r <;>
      simp [isConnectedIn, isConnected, truthy, h, emitLive, hc, onLive, loggerDebug, Eff.modify]
  · cases h : getEntity s.liveList r <;> simp [isConnected, h]

/-- Counterexample to C9 as stated. Right after onJoin(7) on a new source the
entry exists, its connection has not emitted the live signal, and isConnected(7)
is truthy. After a following onReconnect(7) whose creation throws, the
connection of the entry is closed and isConnected(7) is still truthy. -/
theorem C9_counterexample :
    getEntity (joinTimes Env.ok 7 1 (newSource (.string "ws"))).liveList 7 = some ⟨0, 1⟩ ∧
    (joinTimes Env.ok 7 1 (newSource (.string "ws"))).conns = [⟨7, .ws, false, false⟩] ∧
    connectionLive (joinTimes Env.ok 7 1 (newSource (.string "ws"))) 0 = false ∧
    isConnectedIn (joinTimes Env.ok 7 1 (newSource (.string "ws"))) 7 = true ∧
    (onReconnect ⟨true, false⟩ 7 (joinTimes Env.ok 7 1 (newSource (.string "ws")))).2.conns
      = [⟨7, .ws, false, true⟩] ∧
    isConnectedIn
      (onReconnect ⟨true, false⟩ 7 (joinTimes Env.ok 7 1 (newSource (.string "ws")))).2 7
      = true := by
  decide

/-- C10, as amended. For every payload `data` delivered on a connection made
for room `r` in which `data.info[2][0]` is an integer uid (below 2^53 in
magnitude) and `data.info[2]`, `data.info[1]`, `data.info[9]` and
`data.info[9].ts` can be read, the handler returns normally and passes to
sendDanmaku exactly one record, with sender.uid the uid, sender.username
`data.info[2][1]`, sender.url the text `https://space.bilibili.com/` followed by
the uid in decimal, text `data.info[1]`, timestamp `data.info[9].ts` and roomId
`r`. For uid 42 the url is `https://space.bilibili.com/42`. -/
theorem C10_danmaku_fields (s : Source) (r : RoomId) (live : Handle)
    (data info senderInfo username text tsObj ts : JSValue) (uid : Int)
    (hconn : (s.conns[live]?).map Conn.roomId = some r)
    (hinfo : data.getProp (.name "info") = .ok info)
    (hsender : info.getProp (.index 2) = .ok senderInfo)
    (huid : senderInfo.getProp (.index 0) = .ok (.number uid))
    (hrange : -2 ^ 53 < uid ∧ uid < 2 ^ 53)
    (hname : senderInfo.getProp (.index 1) = .ok username)
    (htext : info.getProp (.index 1) = .ok text)
    (hts9 : info.getProp (.index 9) = .ok tsObj)
    (hts : tsObj.getProp (.name "ts") = .ok ts) :
    emitDanmuMsg live data s = (.ok (), { s with sent := s.sent ++
      [{ sender := { uid := .number uid, username := username,
                     url := "https://space.bilibili.com/" ++ toString uid },
         text := text, timestamp := ts, roomId := r }] }) := by
  cases hc : s.conns[live]? with
  | none => simp [hc] at hconn
  | some c =>
    have hr : c.roomId = r := by simpa [hc] using hconn
    simp [emitDanmuMsg, hc, onDanmuMsg, bind, Eff.andThen, Eff.ofExcept, hinfo, hsender, huid,
      hname, htext, hts9, hts, stringPlus, JSValue.toStr, Except.map, Except.bind, sendDanmaku,
      Eff.modify, hr, numberToString_safe uid hrange]

/-- Witness for C10: the sample payload (uid 42, alice, hi, 1000) delivered on
the connection of room 7. -/
theorem C10_danmaku_fields_witness :
    emitDanmuMsg 0 samplePayload (joinTimes Env.ok 7 1 (newSource (.string "ws")))
      = (.ok (), { joinTimes Env.ok 7 1 (newSource (.string "ws")) with sent :=
          [{ sender := { uid := .number 42, username := .string "alice",
                         url := "https://space.bilibili.com/42" },
             text := .string "hi", timestamp := .number 1000, roomId := 7 }] }) :=
  C10_danmaku_fields (joinTimes Env.ok 7 1 (newSource (.string "ws"))) 7 0 samplePayload
    (.array [
      .array [], .string "hi", .array [.number 42, .string "alice"],
      .array [], .array [], .array [], .number 0, .string "", .number 0,
      .object [("ts", .number 1000), ("ct", .string "")]])
    (.array [.number 42, .string "alice"]) (.string "alice") (.string "hi")
    (.object [("ts", .number 1000), ("ct", .string "")]) (.number 1000) 42
    rfl rfl rfl rfl (by decide) rfl rfl rfl rfl

/-- Counterexample to C10 as stated: for the sample payload on room 7 the url
passed to sendDanmaku is `https://space.bilibili.com/42`, which does not end in
`/space/42`. -/
theorem C10_counterexample :
    sentUrls (emitDanmuMsg 0 samplePayload (joinTimes Env.ok 7 1 (newSource (.string "ws")))).2
      = ["https://space.bilibili.com/42"] ∧
    "/space/42".toList.isSuffixOf "https://space.bilibili.com/42".toList = false := by
  decide

/-! ## Payloads without a timestamp -/

theorem emitDanmuMsg_frame (live : Handle) (data : JSValue) (s : Source) :
    (emitDanmuMsg live data s).2.liveList = s.liveList ∧
    (emitDanmuMsg live data s).2.conns = s.conns ∧
    (emitDanmuMsg live data s).2.calls = s.calls ∧
    (emitDanmuMsg live data s).2.bilibiliProtocol = s.bilibiliProtocol := by
  unfold emitDanmuMsg
  cases s.conns[live]? with
  | none => simp
  | some c =>
    simp only [onDanmuMsg, bind, Eff.andThen, Eff.ofExcept, sendDanmaku, Eff.modify]
    repeat' split
    all_goals simp_all

theorem emitDanmuMsg_reads (s : Source) (r : RoomId) (live : Handle)
    (data username text slot9 : JSValue) (uid : Int)
    (hconn : (s.conns[live]?).map Conn.roomId = some r)
    (hreads : PayloadReads data uid username text slot9) :
    emitDanmuMsg live data s =
      match slot9.getProp (.name "ts") with
      | .error e => (.error e, s)
      | .ok ts => (.ok (), { s with sent := s.sent ++
          [{ sender := { uid := .number uid, username := username,
                         url := "https://space.bilibili.com/" ++ toString uid },
             text := text, timestamp := ts, roomId := r }] }) := by
  obtain ⟨info, senderInfo, hinfo, hsender, huid, hrange, hname, htext, hslot⟩ := hreads
  cases hc : s.conns[live]? with
  | none => simp [hc] at hconn
  | some c =>
    have hr : c.roomId = r := by simpa [hc] using hconn
    cases hts : slot9.getProp (.name "ts") <;>
      simp [emitDanmuMsg, hc, onDanmuMsg, bind, Eff.andThen, Eff.ofExcept, hinfo, hsender, huid,
        hname, htext, hslot, hts, stringPlus, JSValue.toStr, Except.map, Except.bind,
        sendDanmaku, Eff.modify, hr, numberToString_safe uid hrange]

theorem getProp_total (v : JSValue) (key : PropertyKey) :
    v = .undefined ∨ v = .null ∨ ∃ w, v.getProp key = .ok w := by
  cases v <;> cases key <;>
    first
    | exact Or.inl rfl
    | exact Or.inr (Or.inl rfl)
    | exact Or.inr (Or.inr ⟨_, rfl⟩)
    | (right; right; simp only [JSValue.getProp]; split <;> exact ⟨_, rfl⟩)

/-- C11, as amended. Take a payload delivered on a connection made for room `r`
that is well formed apart from its timestamp; its `info[9]` is absent
(`undefined`), `null`, or a value on which `ts` can be read. When `info[9]` is
absent or `null` the handler throws a TypeError at the read of `info[9].ts`,
which nothing in the handler catches, and leaves the whole state as it was: no
record is sent. When `info[9]` is present and not `null` but has no `ts`, the
handler returns normally and sends one record whose timestamp is `undefined`,
and a well-formed payload delivered next on the same connection is normalized
and sent as one more record. In every case the pool, the connection objects
and the calls made to the provider are unchanged (nothing is closed). -/
theorem C11_missing_timestamp (s : Source) (r : RoomId) (live : Handle)
    (bad username text slot9 : JSValue) (uid : Int)
    (good username2 text2 tsObj2 ts2 : JSValue) (uid2 : Int)
    (hconn : (s.conns[live]?).map Conn.roomId = some r)
    (hbad : PayloadReads bad uid username text slot9)
    (hgood : PayloadReads good uid2 username2 text2 tsObj2)
    (hts2 : tsObj2.getProp (.name "ts") = .ok ts2) :
    (slot9 = .undefined ∨ slot9 = .null ∨ ∃ ts, slot9.getProp (.name "ts") = .ok ts) ∧
    (slot9 = .undefined ∨ slot9 = .null →
      ∃ msg, emitDanmuMsg live bad s = (.error (.typeError msg), s)) ∧
    (slot9.getProp (.name "ts") = .ok .undefined →
      emitDanmuMsg live bad s = (.ok (), { s with sent := s.sent ++
        [{ sender := { uid := .number uid, username := username,
                       url := "https://space.bilibili.com/" ++ toString uid },
           text := text, timestamp := .undefined, roomId := r }] }) ∧
      emitDanmuMsg live good (emitDanmuMsg live bad s).2
        = (.ok (), { s with sent := s.sent ++
          [{ sender := { uid := .number uid, username := username,
                         url := "https://space.bilibili.com/" ++ toString uid },
             text := text, timestamp := .undefined, roomId := r },
           { sender := { uid := .number uid2, username := username2,
                         url := "https://space.bilibili.com/" ++ toString uid2 },
             text := text2, timestamp := ts2, roomId := r }] })) ∧
    ((emitDanmuMsg live bad s).2.liveList = s.liveList ∧
      (emitDanmuMsg live bad s).2.conns = s.conns ∧
      (emitDanmuMsg live bad s).2.calls = s.calls) := by
  have hframe := emitDanmuMsg_frame live bad s
  have hreads := emitDanmuMsg_reads s r live bad username text slot9 uid hconn hbad
  refine ⟨getProp_total slot9 (.name "ts"), ?_, ?_, ⟨hframe.1, hframe.2.1, hframe.2.2.1⟩⟩
  · rintro (h9 | h9)
    · subst h9
      exact ⟨_, hreads⟩
    · subst h9
      exact ⟨_, hreads⟩
  · intro hts
    simp only [hts] at hreads
    refine ⟨hreads, ?_⟩
    have hconn2 : ((emitDanmuMsg live bad s).2.conns[live]?).map Conn.roomId = some r := by
      rw [hframe.2.1]
      exact hconn
    rw [emitDanmuMsg_reads _ r live good username2 text2 tsObj2 uid2 hconn2 hgood, hts2, hreads]
    simp

/-- Witness for C11, on the connection of room 7: the payload without
`info[9]` makes the handler throw and leaves the state as it was; the payload
whose `info[9]` has no `ts` is sent with timestamp `undefined`, and the sample
payload delivered after it is sent too. -/
theorem C11_missing_timestamp_witness :
    (∃ msg, emitDanmuMsg 0 payloadWithoutInfo9 (joinTimes Env.ok 7 1 (newSource (.string "ws")))
      = (.error (.typeError msg), joinTimes Env.ok 7 1 (newSource (.string "ws")))) ∧
    (emitDanmuMsg 0 payloadWithoutTs (joinTimes Env.ok 7 1 (newSource (.string "ws")))).1
      = .ok () ∧
    (emitDanmuMsg 0 samplePayload
      (emitDanmuMsg 0 payloadWithoutTs
        (joinTimes Env.ok 7 1 (newSource (.string "ws")))).2).1 = .ok () :=
  have h1 := C11_missing_timestamp (joinTimes Env.ok 7 1 (newSource (.string "ws"))) 7 0
    payloadWithoutInfo9 (.string "alice") (.string "hi") .undefined 42
    samplePayload (.string "alice") (.string "hi")
    (.object [("ts", .number 1000), ("ct", .string "")]) (.number 1000) 42
    rfl
    ⟨_, _, rfl, rfl, rfl, by decide, rfl, rfl, rfl⟩
    ⟨_, _, rfl, rfl, rfl, by decide, rfl, rfl, rfl⟩
    rfl
  have h2 := C11_missing_timestamp (joinTimes Env.ok 7 1 (newSource (.string "ws"))) 7 0
    payloadWithoutTs (.string "alice") (.string "hi") (.object [("ct", .string "")]) 42
    samplePayload (.string "alice") (.string "hi")
    (.object [("ts", .number 1000), ("ct", .string "")]) (.number 1000) 42
    rfl
    ⟨_, _, rfl, rfl, rfl, by decide, rfl, rfl, rfl⟩
    ⟨_, _, rfl, rfl, rfl, by decide, rfl, rfl, rfl⟩
    rfl
  ⟨h1.2.1 (Or.inl rfl), by rw [(h2.2.2.1 rfl).1], by rw [(h2.2.2.1 rfl).2]⟩

/-- Counterexample to C11 as stated, on the connection of room 7. For the
payload without `info[9]`, and for the one whose `info[9]` is `null`, the
handler completes with a thrown TypeError. For the payload whose `info[9]` has
no `ts` it sends one record, with timestamp `undefined`. -/
theorem C11_counterexample :
    threwTypeError
      (emitDanmuMsg 0 payloadWithoutInfo9 (joinTimes Env.ok 7 1 (newSource (.string "ws")))).1
      = true ∧
    threwTypeError
      (emitDanmuMsg 0 payloadWithNull9 (joinTimes Env.ok 7 1 (newSource (.string "ws")))).1
      = true ∧
    (emitDanmuMsg 0 payloadWithoutTs
      (joinTimes Env.ok 7 1 (newSource (.string "ws")))).1 = .ok () ∧
    sentWithoutTimestamp (emitDanmuMsg 0 payloadWithoutTs
      (joinTimes Env.ok 7 1 (newSource (.string "ws")))).2 = [true] := by
  refine ⟨by decide, by decide, rfl, by decide⟩

/-! ## The batch reconnect task visits the snapshot -/

theorem onReconnect_completes (env : Env) (r : RoomId) (s : Source) :
    (onReconnect env r s).1 = .ok () := by
  cases hget : getEntity s.liveList r with
  | none => rw [onReconnect_absent env r s hget]
  | some e =>
    cases hk : env.closeThrows
    · cases hc : env.createThrows
      · rw [onReconnect_ok env r s e hget hk hc]
      · rw [onReconnect_create_throw env r s e hget hk hc]
    · rw [onReconnect_close_throw env r s e hget hk]

theorem batchLoop_trace (sched : Nat → Env × List (Env × Operation)) (keys : List RoomId)
    (i : Nat) (b : BatchState) :
    (batchLoop sched keys i b).1 = .ok () ∧
    (batchLoop sched keys i b).2.trace = b.trace ++ batchTrace keys := by
  induction keys generalizing i b with
  | nil => simp [batchLoop, batchTrace]
  | cons k rest ih =>
    have hok := onReconnect_completes (sched i).1 k b.source
    rw [batchLoop]
    split
    · rename_i e s1 heq
      rw [heq] at hok
      cases hok
    · rename_i u s1 heq
      have h := ih (i + 1)
        (delay BATCH_RECONNECT_DELAY (sched i).2
          { source := s1, trace := b.trace ++ [.reconnect k] })
      refine ⟨h.1, ?_⟩
      rw [h.2]
      simp [delay, batchTrace]

theorem objectKeys_perm (l : List (RoomId × Entity)) :
    (objectKeys l).Perm (l.map Prod.fst) := by
  unfold objectKeys
  exact ((List.perm_insertionSort _ _).append_right _).trans (List.filter_append_perm _ _)

theorem hasEntry_iff_mem_keys (s : Source) (r : RoomId) :
    hasEntry s r = true ↔ r ∈ s.liveList.map Prod.fst := by
  unfold hasEntry
  induction s.liveList with
  | nil => simp [getEntity]
  | cons p rest ih =>
    obtain ⟨k, e⟩ := p
    by_cases h : k = r
    · simp [getEntity, h]
    · have h2 : ¬ r = k := fun h3 => h h3.symm
      simp [getEntity, h, h2, ih]

theorem batchTrace_count (keys : List RoomId) (r : RoomId) :
    (batchTrace keys).count (.reconnect r) = keys.count r := by
  induction keys with
  | nil => simp [batchTrace]
  | cons k rest ih =>
    by_cases h : k = r
    · subst h
      simp [batchTrace, ih, List.count_cons]
    · have h2 : ¬ BatchEvent.reconnect k = BatchEvent.reconnect r := by
        intro h3
        cases h3
        exact h rfl
      simp [batchTrace, ih, List.count_cons, h, h2]

/-! ## What an operation leaves alone -/

theorem markClosed_getElem_ne (cs : List Conn) (h i : Handle) (hne : h ≠ i) :
    (markClosed cs h)[i]? = cs[i]? := by
  induction cs generalizing h i with
  | nil => simp [markClosed]
  | cons c rest ih =>
    cases h with
    | zero =>
      cases i with
      | zero => exact absurd rfl hne
      | succ j => simp [markClosed]
    | succ k =>
      cases i with
      | zero => simp [markClosed]
      | succ j =>
        have : k ≠ j := fun h2 => hne (by rw [h2])
        simp [markClosed, ih k j this]

theorem getElem?_append_some (cs xs : List Conn) (i : Nat) (c : Conn) (h : cs[i]? = some c) :
    (cs ++ xs)[i]? = some c := by
  have hlt : i < cs.length := by
    by_contra hge
    rw [List.getElem?_eq_none (by omega)] at h
    cases h
  rw [List.getElem?_append_left hlt]
  exact h

theorem perform_frame (env : Env) (s : Source) (op : Operation) :
    (∀ b, op.roomId ≠ b →
      getEntity (perform env op s).2.liveList b = getEntity s.liveList b) ∧
    ∃ new, (perform env op s).2.calls = s.calls ++ new ∧
      ∀ h, (∀ ea, getEntity s.liveList op.roomId = some ea → ea.live ≠ h) →
        (∀ ok, Call.close h ok ∉ new) ∧
        (∀ c, s.conns[h]? = some c → (perform env op s).2.conns[h]? = some c) := by
  cases op with
  | join a =>
    simp only [perform, Operation.roomId]
    cases hget : getEntity s.liveList a with
    | none =>
      cases hc : env.createThrows
      · rw [onJoin_fresh_ok env a s hget hc]
        refine ⟨fun b hb => getEntity_setEntity_other _ _ _ _ (Ne.symm hb), _, rfl, fun h _ => ⟨?_, ?_⟩⟩
        · intro ok; simp
        · intro c hc; exact getElem?_append_some _ _ _ _ hc
      · rw [onJoin_fresh_throw env a s hget hc]
        refine ⟨fun b hb => rfl, _, rfl, fun h _ => ⟨?_, ?_⟩⟩
        · intro ok; simp
        · intro c hc; exact hc
    | some e =>
      rw [onJoin_entry env a s e hget]
      refine ⟨fun b hb => getEntity_setEntity_other _ _ _ _ (Ne.symm hb), [], by simp, fun h _ => ⟨?_, ?_⟩⟩
      · intro ok; simp
      · intro c hc; exact hc
  | leave a =>
    simp only [perform, Operation.roomId]
    cases hget : getEntity s.liveList a with
    | none =>
      rw [onLeave_absent env a s hget]
      exact ⟨fun b hb => rfl, [], by simp, fun h _ => ⟨by intro ok; simp, fun c hc => hc⟩⟩
    | some e =>
      by_cases hcnt : e.counter - 1 ≤ 0
      · cases hk : env.closeThrows
        · rw [onLeave_last_ok env a s e hget hcnt hk]
          refine ⟨fun b hb => ?_, _, rfl, fun h hh => ⟨?_, ?_⟩⟩
          · show getEntity (deleteEntity _ a) b = _
            rw [getEntity_deleteEntity_other _ _ _ (Ne.symm hb),
              getEntity_setEntity_other _ _ _ _ (Ne.symm hb)]
          · intro ok
            have := hh e rfl
            simp [Ne.symm this]
          · intro c hc
            show (markClosed s.conns e.live)[h]? = some c
            rw [markClosed_getElem_ne _ _ _ (hh e rfl)]
            exact hc
        · rw [onLeave_last_throw env a s e hget hcnt hk]
          refine ⟨fun b hb => getEntity_setEntity_other _ _ _ _ (Ne.symm hb), _, rfl, fun h hh => ⟨?_, ?_⟩⟩
          · intro ok
            have := hh e rfl
            simp [Ne.symm this]
          · intro c hc; exact hc
      · rw [onLeave_keep env a s e hget hcnt]
        refine ⟨fun b hb => getEntity_setEntity_other _ _ _ _ (Ne.symm hb), [], by simp, fun h _ => ⟨?_, ?_⟩⟩
        · intro ok; simp
        · intro c hc; exact hc
  | reconnect a =>
    simp only [perform, Operation.roomId]
    cases hget : getEntity s.liveList a with
    | none =>
      rw [onReconnect_absent env a s hget]
      exact ⟨fun b hb => rfl, [], by simp, fun h _ => ⟨by intro ok; simp, fun c hc => hc⟩⟩
    | some e =>
      cases hk : env.closeThrows
      · cases hc : env.createThrows
        · rw [onReconnect_ok env a s e hget hk hc]
          refine ⟨fun b hb => getEntity_setEntity_other _ _ _ _ (Ne.symm hb), _, rfl, fun h hh => ⟨?_, ?_⟩⟩
          · intro ok
            have := hh e rfl
            simp [Ne.symm this]
          · intro c hc
            apply getElem?_append_some
            rw [markClosed_getElem_ne _ _ _ (hh e rfl)]
            exact hc
        · rw [onReconnect_create_throw env a s e hget hk hc]
          refine ⟨fun b hb => rfl, _, rfl, fun h hh => ⟨?_, ?_⟩⟩
          · intro ok
            have := hh e rfl
            simp [Ne.symm this]
          · intro c hc
            show (markClosed s.conns e.live)[h]? = some c
            rw [markClosed_getElem_ne _ _ _ (hh e rfl)]
            exact hc
      · rw [onReconnect_close_throw env a s e hget hk]
        refine ⟨fun b hb => rfl, _, rfl, fun h hh => ⟨?_, ?_⟩⟩
        · intro ok
          have := hh e rfl
          simp [Ne.symm this]
        · intro c hc; exact hc

theorem markClosed_getElem_same (cs : List Conn) (h : Handle) (c : Conn)
    (hc : cs[h]? = some c) : (markClosed cs h)[h]? = some { c with closed := true } := by
  induction cs generalizing h with
  | nil => simp at hc
  | cons d rest ih =>
    cases h with
    | zero =>
      simp at hc
      subst hc
      simp [markClosed]
    | succ k =>
      simp at hc
      simp [markClosed, ih k hc]

/-- C13. For a room with no entry, onLeave and onReconnect each return normally
and leave the whole state as it was: the pool is the one before, no call is
made to the provider (nothing is closed or created), and nothing is thrown,
whatever the environment would do. -/
theorem C13_absent_room_noop (env : Env) (s : Source) (r : RoomId)
    (hnone : getEntity s.liveList r = none) :
    onLeave env r s = (.ok (), s) ∧ onReconnect env r s = (.ok (), s) :=
  ⟨onLeave_absent env r s hnone, onReconnect_absent env r s hnone⟩

/-- Witness for C13: room 5 has no entry in the source with rooms 30, 10 and
20. -/
theorem C13_absent_room_noop_witness :
    getEntity sampleSource.liveList 5 = none ∧
    onLeave ⟨true, true⟩ 5 sampleSource = (.ok (), sampleSource) ∧
    onReconnect ⟨true, true⟩ 5 sampleSource = (.ok (), sampleSource) :=
  ⟨by decide, C13_absent_room_noop ⟨true, true⟩ sampleSource 5 (by decide)⟩

/-- C15. In a state where the room has an entry with connection `live` and
counter `c`, when close succeeds and the connection constructor then throws
during onReconnect, the call returns normally; the entry is still there with
counter `c` and connection `live`, which is now closed; the calls made are the
close and the failed creation, no new connection object exists, and
isConnected(room) is still truthy. -/
theorem C15_reconnect_keeps_closed_handle (env : Env) (s : Source) (r : RoomId)
    (live : Handle) (c : Int) (hentry : getEntity s.liveList r = some ⟨live, c⟩)
    (hclose : env.closeThrows = false) (hcreate : env.createThrows = true) :
    (onReconnect env r s).1 = .ok () ∧
    getEntity (onReconnect env r s).2.liveList r = some ⟨live, c⟩ ∧
    (onReconnect env r s).2.calls
      = s.calls ++ [.close live true, .create r s.bilibiliProtocol none] ∧
    (onReconnect env r s).2.conns = markClosed s.conns live ∧
    (∀ conn, s.conns[live]? = some conn →
      (onReconnect env r s).2.conns[live]? = some { conn with closed := true }) ∧
    isConnectedIn (onReconnect env r s).2 r = true := by
  rw [onReconnect_create_throw env r s _ hentry hclose hcreate]
  refine ⟨rfl, hentry, rfl, rfl, fun conn hconn => markClosed_getElem_same _ _ _ hconn, ?_⟩
  simp [isConnectedIn, isConnected, hentry, truthy]

/-- Witness for C15: room 7 joined once on a new source, then a reconnect whose
creation throws. -/
theorem C15_reconnect_keeps_closed_handle_witness :
    getEntity
      (onReconnect ⟨true, false⟩ 7 (joinTimes Env.ok 7 1 (newSource (.string "ws")))).2.liveList 7
      = some ⟨0, 1⟩ ∧
    (onReconnect ⟨true, false⟩ 7 (joinTimes Env.ok 7 1 (newSource (.string "ws")))).2.conns
      = markClosed (joinTimes Env.ok 7 1 (newSource (.string "ws"))).conns 0 ∧
    isConnectedIn
      (onReconnect ⟨true, false⟩ 7 (joinTimes Env.ok 7 1 (newSource (.string "ws")))).2 7
      = true :=
  have h := C15_reconnect_keeps_closed_handle ⟨true, false⟩
    (joinTimes Env.ok 7 1 (newSource (.string "ws"))) 7 0 1 (by decide) rfl rfl
  ⟨h.2.1, h.2.2.2.1, h.2.2.2.2.2⟩

/-! ## Join then leave, and the stored protocol -/

theorem setEntity_self (l : List (RoomId × Entity)) (r : RoomId) (e : Entity)
    (h : getEntity l r = some e) : setEntity l r e = l := by
  induction l with
  | nil => simp [getEntity] at h
  | cons p rest ih =>
    obtain ⟨k, v⟩ := p
    by_cases hk : k = r
    · simp [getEntity, hk] at h
      simp [setEntity, hk, h]
    · simp [getEntity, hk] at h
      simp [setEntity, hk, ih h]

theorem deleteEntity_setEntity_absent (l : List (RoomId × Entity)) (r : RoomId) (e : Entity)
    (h : getEntity l r = none) : deleteEntity (setEntity l r e) r = l := by
  induction l with
  | nil => simp [setEntity, deleteEntity]
  | cons p rest ih =>
    obtain ⟨k, v⟩ := p
    by_cases hk : k = r
    · simp [getEntity, hk] at h
    · simp [getEntity, hk] at h
      have := ih h
      simp [deleteEntity] at this
      simp [setEntity, hk, deleteEntity, this]

theorem markClosed_append_length (cs : List Conn) (c : Conn) :
    markClosed (cs ++ [c]) cs.length = cs ++ [{ c with closed := true }] := by
  induction cs with
  | nil => simp [markClosed]
  | cons d rest ih => simp [markClosed, ih]

theorem perform_protocol (env : Env) (op : Operation) (s : Source) :
    (perform env op s).2.bilibiliProtocol = s.bilibiliProtocol := by
  cases op with
  | join a =>
    simp only [perform]
    cases hget : getEntity s.liveList a with
    | none =>
      cases hc : env.createThrows
      · rw [onJoin_fresh_ok env a s hget hc]
      · rw [onJoin_fresh_throw env a s hget hc]
    | some e => rw [onJoin_entry env a s e hget]
  | leave a =>
    simp only [perform]
    cases hget : getEntity s.liveList a with
    | none => rw [onLeave_absent env a s hget]
    | some e =>
      by_cases hcnt : e.counter - 1 ≤ 0
      · cases hk : env.closeThrows
        · rw [onLeave_last_ok env a s e hget hcnt hk]
        · rw [onLeave_last_throw env a s e hget hcnt hk]
      · rw [onLeave_keep env a s e hget hcnt]
  | reconnect a =>
    simp only [perform]
    cases hget : getEntity s.liveList a with
    | none => rw [onReconnect_absent env a s hget]
    | some e =>
      cases hk : env.closeThrows
      · cases hc : env.createThrows
        · rw [onReconnect_ok env a s e hget hk hc]
        · rw [onReconnect_create_throw env a s e hget hk hc]
      · rw [onReconnect_close_throw env a s e hget hk]

theorem run_protocol (cs : List (Env × Operation)) (s : Source) :
    (run s cs).bilibiliProtocol = s.bilibiliProtocol := by
  induction cs generalizing s with
  | nil => rfl
  | cons c rest ih =>
    have h := ih (step s c)
    simp only [run, List.foldl] at h ⊢
    rw [h]
    exact perform_protocol c.1 c.2 s

theorem batchLoop_protocol (sched : Nat → Env × List (Env × Operation)) (keys : List RoomId)
    (i : Nat) (b : BatchState) :
    (batchLoop sched keys i b).2.source.bilibiliProtocol = b.source.bilibiliProtocol := by
  induction keys generalizing i b with
  | nil => simp [batchLoop]
  | cons k rest ih =>
    have hp := perform_protocol (sched i).1 (.reconnect k) b.source
    simp only [perform] at hp
    rw [batchLoop]
    split
    · rename_i e s1 heq
      rw [heq] at hp
      exact hp
    · rename_i u s1 heq
      rw [heq] at hp
      rw [ih]
      simp only [delay]
      rw [run_protocol]
      exact hp

/-- C18. The protocol stored by the constructor is `tcp` iff the configured
value is exactly the string `tcp`, and `ws` in every other case. createLive
calls the constructor of the stored protocol (KeepLiveWS for `ws`, KeepLiveTCP
for `tcp`), once, and a connection object it creates has that protocol. onJoin,
onLeave, onReconnect and batchReconnect leave the stored protocol as it is. -/
theorem C18_protocol_fixed (v : JSValue) (env : Env) (s : Source) (r : RoomId)
    (sched : Nat → Env × List (Env × Operation)) :
    ((newSource v).bilibiliProtocol = .tcp ↔ v = .string "tcp") ∧
    ((newSource v).bilibiliProtocol = .ws ↔ v ≠ .string "tcp") ∧
    (createLive env r s).2.calls = s.calls ++
      [.create r (if s.bilibiliProtocol = .ws then .ws else .tcp)
        (if env.createThrows then none else some s.conns.length)] ∧
    (env.createThrows = false →
      (createLive env r s).1 = .ok s.conns.length ∧
      (createLive env r s).2.conns[s.conns.length]?
        = some ⟨r, if s.bilibiliProtocol = .ws then .ws else .tcp, false, false⟩) ∧
    (onJoin env r s).2.bilibiliProtocol = s.bilibiliProtocol ∧
    (onLeave env r s).2.bilibiliProtocol = s.bilibiliProtocol ∧
    (onReconnect env r s).2.bilibiliProtocol = s.bilibiliProtocol ∧
    (batchReconnect sched s).2.source.bilibiliProtocol = s.bilibiliProtocol := by
  have hproto : (if s.bilibiliProtocol = .ws then Protocol.ws else Protocol.tcp)
      = s.bilibiliProtocol := by
    cases s.bilibiliProtocol <;> simp
  have hnew : (newSource v).bilibiliProtocol = .tcp ↔ v = .string "tcp" := by
    cases v with
    | string p =>
      by_cases h1 : p = "tcp"
      · subst h1
        simp [newSource]
      · by_cases h2 : p = "ws"
        · subst h2
          simp [newSource]
        · simp [newSource, h1, h2]
    | _ => simp [newSource]
  refine ⟨hnew, ?_, ?_, ?_, perform_protocol env (.join r) s, perform_protocol env (.leave r) s,
    perform_protocol env (.reconnect r) s, ?_⟩
  · rw [Ne, ← hnew]
    cases (newSource v).bilibiliProtocol <;> simp
  · rw [createLive_eq, hproto]
    cases hc : env.createThrows <;> simp [newKeepLive, hc]
  · intro hc
    rw [createLive_eq, hproto]
    simp [newKeepLive, hc]
  · have h := batchLoop_protocol sched
      (objectKeys (loggerDebug "Start batch reconnect task" s).2.liveList) 0
      { source := (loggerDebug "Start batch reconnect task" s).2, trace := [] }
    simpa [batchReconnect, loggerDebug, Eff.modify] using h

/-! ## No connection leak -/

theorem getEntity_setEntity (l : List (RoomId × Entity)) (a : RoomId) (x : Entity) :
    getEntity (setEntity l a x) = Function.update (getEntity l) a (some x) := by
  funext r
  by_cases h : r = a
  · subst h
    simp [getEntity_setEntity_same]
  · simp [Function.update, h, getEntity_setEntity_other _ _ _ _ h]

theorem getEntity_deleteEntity (l : List (RoomId × Entity)) (a : RoomId) :
    getEntity (deleteEntity l a) = Function.update (getEntity l) a none := by
  funext r
  by_cases h : r = a
  · subst h
    simp [getEntity_deleteEntity_same]
  · simp [Function.update, h, getEntity_deleteEntity_other _ _ _ h]

theorem getElem?_concat_cases (cs : List Conn) (x c : Conn) (h : Nat)
    (hc : (cs ++ [x])[h]? = some c) :
    cs[h]? = some c ∨ (h = cs.length ∧ c = x) := by
  by_cases hlt : h < cs.length
  · left
    rw [List.getElem?_append_left hlt] at hc
    exact hc
  · right
    by_cases heq : h = cs.length
    · subst heq
      rw [List.getElem?_concat_length] at hc
      exact ⟨rfl, (Option.some.inj hc).symm⟩
    · rw [List.getElem?_eq_none (by simp; omega)] at hc
      cases hc

theorem getElem?_some_lt (cs : List Conn) (h : Nat) (c : Conn) (hc : cs[h]? = some c) :
    h < cs.length := by
  by_contra hge
  rw [List.getElem?_eq_none (by omega)] at hc
  cases hc

theorem markClosed_open (cs : List Conn) (k h : Handle) (c : Conn)
    (hc : (markClosed cs k)[h]? = some c) (hopen : c.closed = false) :
    h ≠ k ∧ cs[h]? = some c := by
  by_cases hk : h = k
  · subst hk
    have hlt : h < cs.length := by
      have := getElem?_some_lt _ _ _ hc
      rwa [markClosed_length] at this
    obtain ⟨c0, hc0⟩ : ∃ c0, cs[h]? = some c0 := ⟨cs[h], List.getElem?_eq_getElem hlt⟩
    rw [markClosed_getElem_same cs h c0 hc0] at hc
    have := Option.some.inj hc
    subst this
    simp at hopen
  · refine ⟨hk, ?_⟩
    rw [markClosed_getElem_ne cs k h (fun h2 => hk h2.symm)] at hc
    exact hc

theorem noLeakOn_counter (f : RoomId → Option Entity) (cs : List Conn) (a : RoomId)
    (e : Entity) (c : Int) (h : NoLeakOn f cs) (hget : f a = some e) (hc : 1 ≤ c) :
    NoLeakOn (Function.update f a (some ⟨e.live, c⟩)) cs := by
  obtain ⟨hA, hB, hC⟩ := h
  have hlive : ∀ r x, Function.update f a (some ⟨e.live, c⟩) r = some x →
      ∃ y, f r = some y ∧ y.live = x.live ∧ (r ≠ a → y = x) ∧ (r = a → x.counter = c) := by
    intro r x hx
    by_cases hr : r = a
    · subst hr
      simp at hx
      subst hx
      exact ⟨e, hget, rfl, fun h2 => absurd rfl h2, fun _ => rfl⟩
    · simp [Function.update, hr] at hx
      exact ⟨x, hx, rfl, fun _ => rfl, fun h2 => absurd h2 hr⟩
  refine ⟨?_, ?_, ?_⟩
  · intro r x hx
    obtain ⟨y, hy, hl, hne, heq⟩ := hlive r x hx
    obtain ⟨hcnt, hconn⟩ := hA r y hy
    rw [hl] at hconn
    refine ⟨?_, hconn⟩
    by_cases hr : r = a
    · rw [heq hr]
      exact hc
    · rw [← hne hr]
      exact hcnt
  · intro h c2 hc2 hopen
    obtain ⟨r, y, hy, hl⟩ := hB h c2 hc2 hopen
    by_cases hr : r = a
    · subst hr
      rw [hget] at hy
      have := Option.some.inj hy
      subst this
      exact ⟨r, ⟨e.live, c⟩, by simp, hl⟩
    · exact ⟨r, y, by simp [Function.update, hr, hy], hl⟩
  · intro r1 r2 x1 x2 h1 h2 hl
    obtain ⟨y1, hy1, hl1, _, _⟩ := hlive r1 x1 h1
    obtain ⟨y2, hy2, hl2, _, _⟩ := hlive r2 x2 h2
    exact hC r1 r2 y1 y2 hy1 hy2 (by rw [hl1, hl2, hl])

theorem noLeakOn_fresh (f : RoomId → Option Entity) (cs : List Conn) (a : RoomId)
    (x : Conn) (h : NoLeakOn f cs) (hget : f a = none) (hx : x.closed = false) :
    NoLeakOn (Function.update f a (some ⟨cs.length, 1⟩)) (cs ++ [x]) := by
  obtain ⟨hA, hB, hC⟩ := h
  refine ⟨?_, ?_, ?_⟩
  · intro r e he
    by_cases hr : r = a
    · subst hr
      simp at he
      subst he
      exact ⟨le_refl _, x, List.getElem?_concat_length _ _, hx⟩
    · simp [Function.update, hr] at he
      obtain ⟨hcnt, c, hc, hopen⟩ := hA r e he
      exact ⟨hcnt, c, getElem?_append_some _ _ _ _ hc, hopen⟩
  · intro h c hc hopen
    rcases getElem?_concat_cases cs x c h hc with hold | ⟨hlen, _⟩
    · obtain ⟨r, e, he, hl⟩ := hB h c hold hopen
      have hr : r ≠ a := by
        rintro rfl
        rw [hget] at he
        cases he
      exact ⟨r, e, by simp [Function.update, hr, he], hl⟩
    · exact ⟨a, ⟨cs.length, 1⟩, by simp, hlen.symm⟩
  · intro r1 r2 e1 e2 h1 h2 hl
    by_cases hr1 : r1 = a
    · by_cases hr2 : r2 = a
      · rw [hr1, hr2]
      · subst hr1
        simp at h1
        subst h1
        simp [Function.update, hr2] at h2
        obtain ⟨_, c, hc, _⟩ := hA r2 e2 h2
        have hlt := getElem?_some_lt _ _ _ hc
        have hl2 : cs.length = e2.live := hl
        omega
    · by_cases hr2 : r2 = a
      · subst hr2
        simp at h2
        subst h2
        simp [Function.update, hr1] at h1
        obtain ⟨_, c, hc, _⟩ := hA r1 e1 h1
        have hlt := getElem?_some_lt _ _ _ hc
        have hl2 : cs.length = e1.live := hl.symm
        omega
      · simp [Function.update, hr1] at h1
        simp [Function.update, hr2] at h2
        exact hC r1 r2 e1 e2 h1 h2 hl

theorem noLeakOn_remove (f : RoomId → Option Entity) (cs : List Conn) (a : RoomId)
    (e : Entity) (h : NoLeakOn f cs) (hget : f a = some e) :
    NoLeakOn (Function.update f a none) (markClosed cs e.live) := by
  obtain ⟨hA, hB, hC⟩ := h
  have hold : ∀ r x, Function.update f a none r = some x → r ≠ a ∧ f r = some x := by
    intro r x hx
    by_cases hr : r = a
    · subst hr
      simp at hx
    · simp [Function.update, hr] at hx
      exact ⟨hr, hx⟩
  refine ⟨?_, ?_, ?_⟩
  · intro r x hx
    obtain ⟨hr, hfx⟩ := hold r x hx
    obtain ⟨hcnt, c, hc, hopen⟩ := hA r x hfx
    have hne : e.live ≠ x.live := fun heq => hr (hC r a x e hfx hget heq.symm)
    exact ⟨hcnt, c, by rw [markClosed_getElem_ne _ _ _ hne]; exact hc, hopen⟩
  · intro h c hc hopen
    obtain ⟨hne, hc0⟩ := markClosed_open cs e.live h c hc hopen
    obtain ⟨r, y, hy, hl⟩ := hB h c hc0 hopen
    have hr : r ≠ a := by
      rintro rfl
      rw [hget] at hy
      have := Option.some.inj hy
      subst this
      exact hne hl.symm
    exact ⟨r, y, by simp [Function.update, hr, hy], hl⟩
  · intro r1 r2 x1 x2 h1 h2 hl
    exact hC r1 r2 x1 x2 (hold r1 x1 h1).2 (hold r2 x2 h2).2 hl

theorem noLeak_step (s : Source) (op : Operation) (h : NoLeak s) :
    NoLeak (step s (Env.ok, op)) := by
  unfold NoLeak at h ⊢
  cases op with
  | join a =>
    simp only [step, perform]
    cases hget : getEntity s.liveList a with
    | none =>
      rw [onJoin_fresh_ok Env.ok a s hget rfl]
      simp only [getEntity_setEntity]
      exact noLeakOn_fresh _ _ a _ h hget rfl
    | some e =>
      rw [onJoin_entry Env.ok a s e hget]
      simp only [getEntity_setEntity]
      have hcnt := (h.1 a e hget).1
      exact noLeakOn_counter _ _ a e (e.counter + 1) h hget (by omega)
  | leave a =>
    simp only [step, perform]
    cases hget : getEntity s.liveList a with
    | none =>
      rw [onLeave_absent Env.ok a s hget]
      exact h
    | some e =>
      by_cases hcnt : e.counter - 1 ≤ 0
      · rw [onLeave_last_ok Env.ok a s e hget hcnt rfl]
        simp only [getEntity_deleteEntity, getEntity_setEntity, Function.update_idem]
        exact noLeakOn_remove _ _ a e h hget
      · rw [onLeave_keep Env.ok a s e hget hcnt]
        simp only [getEntity_setEntity]
        exact noLeakOn_counter _ _ a e (e.counter - 1) h hget (by omega)
  | reconnect a =>
    simp only [step, perform]
    cases hget : getEntity s.liveList a with
    | none =>
      rw [onReconnect_absent Env.ok a s hget]
      exact h
    | some e =>
      rw [onReconnect_ok Env.ok a s e hget rfl rfl]
      simp only [getEntity_setEntity]
      have h1 := noLeakOn_remove _ _ a e h hget
      have h2 := noLeakOn_fresh _ _ a ⟨a, s.bilibiliProtocol, false, false⟩ h1 (by simp) rfl
      have hcnt := (h.1 a e hget).1
      have h3 := noLeakOn_counter _ _ a ⟨(markClosed s.conns e.live).length, 1⟩ e.counter h2
        (by simp) hcnt
      simpa only [Function.update_idem, markClosed_length] using h3

theorem newSource_empty (v : JSValue) :
    (newSource v).liveList = [] ∧ (newSource v).conns = [] := by
  cases v with
  | string p =>
    by_cases h1 : p = "tcp"
    · subst h1
      simp [newSource]
    · by_cases h2 : p = "ws"
      · subst h2
        simp [newSource]
      · simp [newSource, h1, h2]
  | _ => simp [newSource]

theorem noLeak_run (ops : List Operation) (s : Source) (h : NoLeak s) :
    NoLeak (run s (ops.map (fun op => (Env.ok, op)))) := by
  induction ops generalizing s with
  | nil => exact h
  | cons op rest ih => exact ih (step s (Env.ok, op)) (noLeak_step s op h)

/-- C16. In every state reached from a new source by onJoin, onLeave and
onReconnect calls during which creation and close never fail: every entry has
counter at least 1 and holds a connection object that has been created and is
not closed; every connection object created and not closed is held by an entry;
and no connection object is held by the entries of two rooms. So the
connections created and not yet closed are exactly those held by the entries,
one per room with an entry. -/
theorem C16_no_connection_leak (v : JSValue) (ops : List Operation) :
    (∀ r e, getEntity (runOk v ops).liveList r = some e →
      1 ≤ e.counter ∧ ∃ c, (runOk v ops).conns[e.live]? = some c ∧ c.closed = false) ∧
    (∀ h c, (runOk v ops).conns[h]? = some c → c.closed = false →
      ∃ r e, getEntity (runOk v ops).liveList r = some e ∧ e.live = h) ∧
    (∀ r1 r2 e1 e2, getEntity (runOk v ops).liveList r1 = some e1 →
      getEntity (runOk v ops).liveList r2 = some e2 → e1.live = e2.live → r1 = r2) := by
  have hinit : NoLeak (newSource v) := by
    unfold NoLeak NoLeakOn
    rw [(newSource_empty v).1, (newSource_empty v).2]
    simp [getEntity]
  exact noLeak_run ops (newSource v) hinit

/-! ## Entries own their connection objects, whatever fails -/

theorem ownedOn_counter (f : RoomId → Option Entity) (n : Nat) (a : RoomId) (e : Entity)
    (c : Int) (h : OwnedOn f n) (hget : f a = some e) :
    OwnedOn (Function.update f a (some ⟨e.live, c⟩)) n := by
  obtain ⟨hV, hI⟩ := h
  have hlive : ∀ r x, Function.update f a (some ⟨e.live, c⟩) r = some x →
      ∃ y, f r = some y ∧ y.live = x.live := by
    intro r x hx
    by_cases hr : r = a
    · subst hr
      simp at hx
      subst hx
      exact ⟨e, hget, rfl⟩
    · simp [Function.update, hr] at hx
      exact ⟨x, hx, rfl⟩
  refine ⟨?_, ?_⟩
  · intro r x hx
    obtain ⟨y, hy, hl⟩ := hlive r x hx
    rw [← hl]
    exact hV r y hy
  · intro r1 r2 x1 x2 h1 h2 hl
    obtain ⟨y1, hy1, hl1⟩ := hlive r1 x1 h1
    obtain ⟨y2, hy2, hl2⟩ := hlive r2 x2 h2
    exact hI r1 r2 y1 y2 hy1 hy2 (by rw [hl1, hl2, hl])

theorem ownedOn_fresh (f : RoomId → Option Entity) (n : Nat) (a : RoomId) (c : Int)
    (h : OwnedOn f n) : OwnedOn (Function.update f a (some ⟨n, c⟩)) (n + 1) := by
  obtain ⟨hV, hI⟩ := h
  have hcases : ∀ r x, Function.update f a (some ⟨n, c⟩) r = some x →
      (r = a ∧ x.live = n) ∨ (r ≠ a ∧ f r = some x) := by
    intro r x hx
    by_cases hr : r = a
    · subst hr
      simp at hx
      subst hx
      exact Or.inl ⟨rfl, rfl⟩
    · simp [Function.update, hr] at hx
      exact Or.inr ⟨hr, hx⟩
  refine ⟨?_, ?_⟩
  · intro r x hx
    rcases hcases r x hx with ⟨_, hl⟩ | ⟨_, hf⟩
    · rw [hl]
      exact Nat.lt_succ_self n
    · exact Nat.lt_succ_of_lt (hV r x hf)
  · intro r1 r2 x1 x2 h1 h2 hl
    rcases hcases r1 x1 h1 with ⟨hr1, hl1⟩ | ⟨_, hf1⟩
    · rcases hcases r2 x2 h2 with ⟨hr2, _⟩ | ⟨_, hf2⟩
      · rw [hr1, hr2]
      · have h3 := hV r2 x2 hf2
        rw [← hl, hl1] at h3
        exact absurd h3 (Nat.lt_irrefl n)
    · rcases hcases r2 x2 h2 with ⟨_, hl2⟩ | ⟨_, hf2⟩
      · have h3 := hV r1 x1 hf1
        rw [hl, hl2] at h3
        exact absurd h3 (Nat.lt_irrefl n)
      · exact hI r1 r2 x1 x2 hf1 hf2 hl

theorem ownedOn_remove (f : RoomId → Option Entity) (n : Nat) (a : RoomId)
    (h : OwnedOn f n) : OwnedOn (Function.update f a none) n := by
  obtain ⟨hV, hI⟩ := h
  have hold : ∀ r x, Function.update f a none r = some x → f r = some x := by
    intro r x hx
    by_cases hr : r = a
    · subst hr
      simp at hx
    · simp [Function.update, hr] at hx
      exact hx
  exact ⟨fun r x hx => hV r x (hold r x hx),
    fun r1 r2 x1 x2 h1 h2 hl => hI r1 r2 x1 x2 (hold r1 x1 h1) (hold r2 x2 h2) hl⟩

theorem owned_step (s : Source) (c : Env × Operation) (h : Owned s) : Owned (step s c) := by
  obtain ⟨env, op⟩ := c
  unfold Owned at h ⊢
  cases op with
  | join a =>
    simp only [step, perform]
    cases hget : getEntity s.liveList a with
    | none =>
      cases hc : env.createThrows
      · rw [onJoin_fresh_ok env a s hget hc]
        simp only [getEntity_setEntity, List.length_append, List.length_singleton]
        exact ownedOn_fresh _ _ a 1 h
      · rw [onJoin_fresh_throw env a s hget hc]
        exact h
    | some e =>
      rw [onJoin_entry env a s e hget]
      simp only [getEntity_setEntity]
      exact ownedOn_counter _ _ a e _ h hget
  | leave a =>
    simp only [step, perform]
    cases hget : getEntity s.liveList a with
    | none =>
      rw [onLeave_absent env a s hget]
      exact h
    | some e =>
      by_cases hcnt : e.counter - 1 ≤ 0
      · cases hk : env.closeThrows
        · rw [onLeave_last_ok env a s e hget hcnt hk]
          simp only [getEntity_deleteEntity, getEntity_setEntity, Function.update_idem,
            markClosed_length]
          exact ownedOn_remove _ _ a h
        · rw [onLeave_last_throw env a s e hget hcnt hk]
          simp only [getEntity_setEntity]
          exact ownedOn_counter _ _ a e _ h hget
      · rw [onLeave_keep env a s e hget hcnt]
        simp only [getEntity_setEntity]
        exact ownedOn_counter _ _ a e _ h hget
  | reconnect a =>
    simp only [step, perform]
    cases hget : getEntity s.liveList a with
    | none =>
      rw [onReconnect_absent env a s hget]
      exact h
    | some e =>
      cases hk : env.closeThrows
      · cases hc : env.createThrows
        · rw [onReconnect_ok env a s e hget hk hc]
          simp only [getEntity_setEntity, List.length_append, List.length_singleton,
            markClosed_length]
          exact ownedOn_fresh _ _ a e.counter h
        · rw [onReconnect_create_throw env a s e hget hk hc]
          simp only [markClosed_length]
          exact h
      · rw [onReconnect_close_throw env a s e hget hk]
        exact h

theorem owned_run (cs : List (Env × Operation)) (s : Source) (h : Owned s) :
    Owned (run s cs) := by
  induction cs generalizing s with
  | nil => exact h
  | cons c rest ih => exact ih (step s c) (owned_step s c h)

theorem owned_reachable (v : JSValue) (cs : List (Env × Operation)) :
    Owned (run (newSource v) cs) := by
  apply owned_run
  unfold Owned OwnedOn
  rw [(newSource_empty v).1]
  simp [getEntity]

/-- C14. Let an operation (onJoin, onLeave or onReconnect) be called on room
`a` in any state and any environment, and let `b` be another room. The entry of
`b` is afterwards exactly what it was (present or not, same connection, same
counter). When `b` has an entry whose connection object is not the one held by
the entry of `a`, none of the calls made to the provider is a close on the
connection of `b`, and that connection object is left as it was. The entries of
two rooms never hold the same connection object in a state reached from a new
source, whatever failed on the way. -/
theorem C14_other_rooms_untouched (env : Env) (s : Source) (op : Operation) (b : RoomId)
    (hne : op.roomId ≠ b) :
    getEntity (perform env op s).2.liveList b = getEntity s.liveList b ∧
    (∃ new, (perform env op s).2.calls = s.calls ++ new ∧
      ∀ eb, getEntity s.liveList b = some eb →
        (∀ ea, getEntity s.liveList op.roomId = some ea → ea.live ≠ eb.live) →
        (∀ ok, Call.close eb.live ok ∉ new) ∧
        (∀ c, s.conns[eb.live]? = some c →
          (perform env op s).2.conns[eb.live]? = some c)) ∧
    ((∃ v cs, s = run (newSource v) cs) →
      ∀ ea eb, getEntity s.liveList op.roomId = some ea → getEntity s.liveList b = some eb →
        ea.live ≠ eb.live) := by
  obtain ⟨hother, new, hcalls, hrest⟩ := perform_frame env s op
  refine ⟨hother b hne, ⟨new, hcalls, fun eb _ hown => hrest eb.live hown⟩, ?_⟩
  rintro ⟨v, cs, rfl⟩ ea eb hea heb heq
  exact hne ((owned_reachable v cs).2 _ _ ea eb hea heb heq)

/-- Witness for C14: in the source with rooms 30, 10 and 20, the last onLeave
on room 10 leaves the entry of room 20 as it was. -/
theorem C14_other_rooms_untouched_witness :
    getEntity (perform Env.ok (.leave 10) sampleSource).2.liveList 20 = some ⟨2, 1⟩ ∧
    getEntity (perform Env.ok (.leave 10) sampleSource).2.liveList 20
      = getEntity sampleSource.liveList 20 :=
  ⟨by decide, (C14_other_rooms_untouched Env.ok sampleSource (.leave 10) 20 (by decide)).1⟩

/-- Witness for C16: after joins on rooms 30 and 10, a leave on 30 and a
reconnect on 10, the entry of room 10 has counter 1 and holds connection 2,
which is not closed. -/
theorem C16_no_connection_leak_witness :
    getEntity (runOk (.string "ws")
      [.join 30, .join 10, .leave 30, .reconnect 10]).liveList 10 = some ⟨2, 1⟩ ∧
    (1 : Int) ≤ 1 ∧
    ∃ c, (runOk (.string "ws") [.join 30, .join 10, .leave 30, .reconnect 10]).conns[2]?
      = some c ∧ c.closed = false :=
  ⟨by decide,
    (C16_no_connection_leak (.string "ws") [.join 30, .join 10, .leave 30, .reconnect 10]).1
      10 ⟨2, 1⟩ (by decide)⟩

/-! ## Each room is a key of `liveList` once -/

theorem keys_setEntity (l : List (RoomId × Entity)) (a : RoomId) (x : Entity) :
    (setEntity l a x).map Prod.fst
      = if a ∈ l.map Prod.fst then l.map Prod.fst else l.map Prod.fst ++ [a] := by
  induction l with
  | nil => simp [setEntity]
  | cons p rest ih =>
    obtain ⟨k, v⟩ := p
    by_cases h : k = a
    · subst h
      simp [setEntity]
    · have h2 : ¬ a = k := fun h3 => h h3.symm
      by_cases hm : a ∈ rest.map Prod.fst
      · rw [if_pos hm] at ih
        simp only [List.map_cons, List.mem_cons, h2, false_or]
        rw [if_pos hm]
        simp [setEntity, h, ih]
      · rw [if_neg hm] at ih
        simp only [List.map_cons, List.mem_cons, h2, false_or]
        rw [if_neg hm]
        simp [setEntity, h, ih]

theorem keys_setEntity_nodup (l : List (RoomId × Entity)) (a : RoomId) (x : Entity)
    (h : (l.map Prod.fst).Nodup) : ((setEntity l a x).map Prod.fst).Nodup := by
  rw [keys_setEntity]
  by_cases hm : a ∈ l.map Prod.fst
  · rw [if_pos hm]
    exact h
  · rw [if_neg hm]
    exact List.Nodup.append h (List.nodup_singleton a) (by
      intro y hy hy2
      simp at hy2
      subst hy2
      exact hm hy)

theorem keys_deleteEntity_nodup (l : List (RoomId × Entity)) (a : RoomId)
    (h : (l.map Prod.fst).Nodup) : ((deleteEntity l a).map Prod.fst).Nodup := by
  unfold deleteEntity
  exact (List.Nodup.sublist ((List.filter_sublist l).map Prod.fst) h)

theorem keys_nodup_step (s : Source) (c : Env × Operation)
    (h : (s.liveList.map Prod.fst).Nodup) : ((step s c).liveList.map Prod.fst).Nodup := by
  obtain ⟨env, op⟩ := c
  cases op with
  | join a =>
    simp only [step, perform]
    cases hget : getEntity s.liveList a with
    | none =>
      cases hc : env.createThrows
      · rw [onJoin_fresh_ok env a s hget hc]
        exact keys_setEntity_nodup _ _ _ h
      · rw [onJoin_fresh_throw env a s hget hc]
        exact h
    | some e =>
      rw [onJoin_entry env a s e hget]
      exact keys_setEntity_nodup _ _ _ h
  | leave a =>
    simp only [step, perform]
    cases hget : getEntity s.liveList a with
    | none =>
      rw [onLeave_absent env a s hget]
      exact h
    | some e =>
      by_cases hcnt : e.counter - 1 ≤ 0
      · cases hk : env.closeThrows
        · rw [onLeave_last_ok env a s e hget hcnt hk]
          exact keys_deleteEntity_nodup _ _ (keys_setEntity_nodup _ _ _ h)
        · rw [onLeave_last_throw env a s e hget hcnt hk]
          exact keys_setEntity_nodup _ _ _ h
      · rw [onLeave_keep env a s e hget hcnt]
        exact keys_setEntity_nodup _ _ _ h
  | reconnect a =>
    simp only [step, perform]
    cases hget : getEntity s.liveList a with
    | none =>
      rw [onReconnect_absent env a s hget]
      exact h
    | some e =>
      cases hk : env.closeThrows
      · cases hc : env.createThrows
        · rw [onReconnect_ok env a s e hget hk hc]
          exact keys_setEntity_nodup _ _ _ h
        · rw [onReconnect_create_throw env a s e hget hk hc]
          exact h
      · rw [onReconnect_close_throw env a s e hget hk]
        exact h

theorem keys_nodup_reachable (v : JSValue) (cs : List (Env × Operation)) :
    ((run (newSource v) cs).liveList.map Prod.fst).Nodup := by
  have hrun : ∀ (cs : List (Env × Operation)) (s : Source),
      (s.liveList.map Prod.fst).Nodup → ((run s cs).liveList.map Prod.fst).Nodup := by
    intro cs
    induction cs with
    | nil => exact fun s h => h
    | cons c rest ih => exact fun s h => ih (step s c) (keys_nodup_step s c h)
  apply hrun
  rw [(newSource_empty v).1]
  exact List.nodup_nil

theorem run_append (s : Source) (xs ys : List (Env × Operation)) :
    run s (xs ++ ys) = run (run s xs) ys := by
  simp [run, List.foldl_append]

theorem batchLoop_source (sched : Nat → Env × List (Env × Operation)) (keys : List RoomId)
    (i : Nat) (b : BatchState) :
    (batchLoop sched keys i b).2.source = run b.source (batchCalls sched keys i) := by
  induction keys generalizing i b with
  | nil => simp [batchLoop, batchCalls, run]
  | cons k rest ih =>
    have hok := onReconnect_completes (sched i).1 k b.source
    rw [batchLoop]
    split
    · rename_i e s1 heq
      rw [heq] at hok
      cases hok
    · rename_i u s1 heq
      have hs1 : s1 = step b.source ((sched i).1, Operation.reconnect k) := by
        simp only [step, perform]
        rw [heq]
      rw [ih, batchCalls]
      simp only [delay]
      rw [hs1, ← run_append]
      rfl

/-- C12. One run of batchReconnect completes normally whatever fails and
whatever calls arrive during its delays, and what it does is exactly: for each
key of the enumeration taken at the start, in that order, one onReconnect call
followed by one delay of BATCH_RECONNECT_DELAY = 10000 ms. The source after the
run is the one obtained from the source before it by exactly these calls, in
this order: onReconnect on the first key, the calls arriving during the first
delay, onReconnect on the second key, and so on. A room without an entry at the
start gets no onReconnect call from the task, also when onJoin creates its entry
during the run. Where each room is a key of liveList once, as in every state
reached from a new source, every room gets exactly one onReconnect call if it
had an entry at the start and none otherwise. -/
theorem C12_batchReconnect_snapshot (sched : Nat → Env × List (Env × Operation))
    (s : Source) :
    (batchReconnect sched s).1 = .ok () ∧
    (batchReconnect sched s).2.trace = batchTrace (objectKeys s.liveList) ∧
    (batchReconnect sched s).2.source
      = run { s with log := s.log ++ [⟨.debug, "Start batch reconnect task"⟩] }
          (batchCalls sched (objectKeys s.liveList) 0) ∧
    BATCH_RECONNECT_DELAY = 10000 ∧
    (∀ r, hasEntry s r = false →
      BatchEvent.reconnect r ∉ (batchReconnect sched s).2.trace) ∧
    ((s.liveList.map Prod.fst).Nodup →
      ∀ r, ((batchReconnect sched s).2.trace.count (.reconnect r)
        = if hasEntry s r = true then 1 else 0)) ∧
    ((∃ v cs, s = run (newSource v) cs) → (s.liveList.map Prod.fst).Nodup) := by
  have hloop := batchLoop_trace sched (objectKeys s.liveList) 0
    { source := (loggerDebug "Start batch reconnect task" s).2, trace := [] }
  have hsource := batchLoop_source sched (objectKeys s.liveList) 0
    { source := (loggerDebug "Start batch reconnect task" s).2, trace := [] }
  have htrace : (batchReconnect sched s).2.trace = batchTrace (objectKeys s.liveList) := by
    simpa [batchReconnect, loggerDebug, Eff.modify] using hloop.2
  have hcount : ∀ r, (batchReconnect sched s).2.trace.count (.reconnect r)
      = (s.liveList.map Prod.fst).count r := by
    intro r
    rw [htrace, batchTrace_count, (objectKeys_perm s.liveList).count_eq]
  refine ⟨?_, htrace, ?_, rfl, ?_, ?_, ?_⟩
  · simpa [batchReconnect, loggerDebug, Eff.modify] using hloop.1
  · simpa [batchReconnect, loggerDebug, Eff.modify] using hsource
  · intro r hr hmem
    have hnot : r ∉ s.liveList.map Prod.fst := by
      intro hm
      rw [(hasEntry_iff_mem_keys s r).2 hm] at hr
      cases hr
    have h0 := hcount r
    rw [List.count_eq_zero_of_not_mem hnot] at h0
    exact (List.count_eq_zero.1 h0) hmem
  · intro hkeys r
    rw [hcount r]
    by_cases h : hasEntry s r = true
    · rw [if_pos h]
      exact List.count_eq_one_of_mem hkeys ((hasEntry_iff_mem_keys s r).1 h)
    · rw [if_neg h]
      exact List.count_eq_zero_of_not_mem (fun hm => h ((hasEntry_iff_mem_keys s r).2 hm))
  · rintro ⟨v, cs, rfl⟩
    exact keys_nodup_reachable v cs

/-- Witness for C12: rooms 30, 10 and 20 have entries, holding connections 0, 1
and 2; the snapshot is 10, 20, 30; onJoin(9) arrives during the first delay.
Each of the three rooms is reconnected once, in that order: the provider sees
the close of its old connection and the creation of a new one. Room 9 has an
entry at the end and was never reconnected. -/
theorem C12_batchReconnect_snapshot_witness :
    (batchReconnect sampleSchedule sampleSource).2.trace
      = [.reconnect 10, .delay 10000, .reconnect 20, .delay 10000,
         .reconnect 30, .delay 10000] ∧
    (batchReconnect sampleSchedule sampleSource).2.source.calls
      = sampleSource.calls ++
        [.close 1 true, .create 10 .ws (some 3),
         .create 9 .ws (some 4),
         .close 2 true, .create 20 .ws (some 5),
         .close 0 true, .create 30 .ws (some 6)] ∧
    (batchReconnect sampleSchedule sampleSource).2.source.liveList
      = [(30, ⟨6, 1⟩), (10, ⟨3, 1⟩), (20, ⟨5, 1⟩), (9, ⟨4, 1⟩)] ∧
    BatchEvent.reconnect 9 ∉ (batchReconnect sampleSchedule sampleSource).2.trace ∧
    (batchReconnect sampleSchedule sampleSource).2.trace.count (.reconnect 20) = 1 :=
  have h := C12_batchReconnect_snapshot sampleSchedule sampleSource
  ⟨h.2.1, by rw [h.2.2.1]; decide, by rw [h.2.2.1]; decide, h.2.2.2.2.1 9 (by decide),
    h.2.2.2.2.2.1 (h.2.2.2.2.2.2 ⟨.string "ws", _, rfl⟩) 20⟩

/-! ## Join then leave -/

theorem counters_update (f : RoomId → Option Entity) (a : RoomId) (x : Entity)
    (hf : ∀ r e, f r = some e → 1 ≤ e.counter) (hx : 1 ≤ x.counter) :
    ∀ r e, Function.update f a (some x) r = some e → 1 ≤ e.counter := by
  intro r e he
  by_cases hr : r = a
  · subst hr
    simp at he
    subst he
    exact hx
  · simp [Function.update, hr] at he
    exact hf r e he

theorem counters_remove (f : RoomId → Option Entity) (a : RoomId)
    (hf : ∀ r e, f r = some e → 1 ≤ e.counter) :
    ∀ r e, Function.update f a none r = some e → 1 ≤ e.counter := by
  intro r e he
  by_cases hr : r = a
  · subst hr
    simp at he
  · simp [Function.update, hr] at he
    exact hf r e he

theorem counters_step (s : Source) (createThrows : Bool) (op : Operation)
    (h : ∀ r e, getEntity s.liveList r = some e → 1 ≤ e.counter) :
    ∀ r e, getEntity (step s (⟨createThrows, false⟩, op)).liveList r = some e →
      1 ≤ e.counter := by
  cases op with
  | join a =>
    simp only [step, perform]
    cases hget : getEntity s.liveList a with
    | none =>
      cases createThrows
      · rw [onJoin_fresh_ok ⟨false, false⟩ a s hget rfl]
        simp only [getEntity_setEntity]
        exact counters_update _ a _ h (le_refl _)
      · rw [onJoin_fresh_throw ⟨true, false⟩ a s hget rfl]
        exact h
    | some e =>
      rw [onJoin_entry _ a s e hget]
      simp only [getEntity_setEntity]
      have := h a e hget
      exact counters_update _ a _ h (by show (1 : Int) ≤ e.counter + 1; omega)
  | leave a =>
    simp only [step, perform]
    cases hget : getEntity s.liveList a with
    | none =>
      rw [onLeave_absent _ a s hget]
      exact h
    | some e =>
      by_cases hcnt : e.counter - 1 ≤ 0
      · rw [onLeave_last_ok ⟨createThrows, false⟩ a s e hget hcnt rfl]
        simp only [getEntity_deleteEntity, getEntity_setEntity, Function.update_idem]
        exact counters_remove _ a h
      · rw [onLeave_keep _ a s e hget hcnt]
        simp only [getEntity_setEntity]
        exact counters_update _ a _ h (by show (1 : Int) ≤ e.counter - 1; omega)
  | reconnect a =>
    simp only [step, perform]
    cases hget : getEntity s.liveList a with
    | none =>
      rw [onReconnect_absent _ a s hget]
      exact h
    | some e =>
      cases createThrows
      · rw [onReconnect_ok ⟨false, false⟩ a s e hget rfl rfl]
        simp only [getEntity_setEntity]
        exact counters_update _ a _ h (h a e hget)
      · rw [onReconnect_create_throw ⟨true, false⟩ a s e hget rfl rfl]
        exact h

theorem counters_runCloseOk (v : JSValue) (cs : List (Bool × Operation)) :
    ∀ r e, getEntity (runCloseOk v cs).liveList r = some e → 1 ≤ e.counter := by
  have hrun : ∀ (cs : List (Bool × Operation)) (s : Source),
      (∀ r e, getEntity s.liveList r = some e → 1 ≤ e.counter) →
      ∀ r e, getEntity (run s (cs.map (fun c =>
        (({ createThrows := c.1, closeThrows := false } : Env), c.2)))).liveList r = some e →
        1 ≤ e.counter := by
    intro cs
    induction cs with
    | nil => exact fun s h => h
    | cons c rest ih =>
      intro s h
      exact ih (step s (⟨c.1, false⟩, c.2)) (counters_step s c.1 c.2 h)
  apply hrun
  rw [(newSource_empty v).1]
  simp [getEntity]

theorem join_leave_restores (env env2 : Env) (s : Source) (r : RoomId) (live : Handle)
    (c : Int) (hentry : getEntity s.liveList r = some ⟨live, c⟩) (hc : 1 ≤ c) :
    onLeave env2 r (onJoin env r s).2 = (.ok (), s) := by
  rw [onJoin_entry env r s _ hentry]
  have hsome : getEntity (setEntity s.liveList r ⟨live, c + 1⟩) r = some ⟨live, c + 1⟩ :=
    getEntity_setEntity_same _ _ _
  have hkeep : ¬ (⟨live, c + 1⟩ : Entity).counter - 1 ≤ 0 := by
    simp only [not_le]
    omega
  rw [onLeave_keep env2 r _ ⟨live, c + 1⟩ hsome hkeep]
  have hback : (c + 1 - 1 : Int) = c := by omega
  simp only [setEntity_setEntity_same, hback]
  rw [setEntity_self _ _ _ hentry]

/-- C17. Take any state reached from a new source by onJoin, onLeave and
onReconnect calls during which close never fails (creation may fail). When the
room has an entry there, onJoin followed by onLeave returns normally and
restores the whole state: the entry has the same connection and counter, no
call is made to the provider (nothing is created or closed) and every other
entry is as before. When the room has no entry and creation and close succeed,
the pair leaves liveList equal to the one before, after exactly two calls to
the provider: the creation of one connection and the close of that same
connection. -/
theorem C17_join_leave_restores (v : JSValue) (cs : List (Bool × Operation))
    (env env2 : Env) (r : RoomId) :
    (∀ live c, getEntity (runCloseOk v cs).liveList r = some ⟨live, c⟩ →
      onLeave env2 r (onJoin env r (runCloseOk v cs)).2 = (.ok (), runCloseOk v cs)) ∧
    (getEntity (runCloseOk v cs).liveList r = none → env.createThrows = false →
      env2.closeThrows = false →
      (onLeave env2 r (onJoin env r (runCloseOk v cs)).2).2.liveList
        = (runCloseOk v cs).liveList ∧
      (onLeave env2 r (onJoin env r (runCloseOk v cs)).2).2.calls
        = (runCloseOk v cs).calls ++
          [.create r (runCloseOk v cs).bilibiliProtocol (some (runCloseOk v cs).conns.length),
           .close (runCloseOk v cs).conns.length true] ∧
      (onLeave env2 r (onJoin env r (runCloseOk v cs)).2).2.conns
        = (runCloseOk v cs).conns ++ [⟨r, (runCloseOk v cs).bilibiliProtocol, false, true⟩]) := by
  refine ⟨?_, ?_⟩
  · intro live c hentry
    exact join_leave_restores env env2 _ r live c hentry
      (counters_runCloseOk v cs r ⟨live, c⟩ hentry)
  · intro hnone hcreate hclose
    rw [onJoin_fresh_ok env r _ hnone hcreate]
    have hsome : getEntity
        (setEntity (runCloseOk v cs).liveList r ⟨(runCloseOk v cs).conns.length, 1⟩) r
        = some ⟨(runCloseOk v cs).conns.length, 1⟩ := getEntity_setEntity_same _ _ _
    have hlast : (⟨(runCloseOk v cs).conns.length, 1⟩ : Entity).counter - 1 ≤ 0 := by simp
    rw [onLeave_last_ok env2 r _ ⟨(runCloseOk v cs).conns.length, 1⟩ hsome hlast hclose]
    refine ⟨?_, ?_, ?_⟩
    · simp only [setEntity_setEntity_same]
      exact deleteEntity_setEntity_absent _ _ _ hnone
    · simp
    · exact markClosed_append_length _ _

/-- Witness for C17: after joins on rooms 30, 10 and 20, a reconnect on 10
whose creation fails and a second join on 20, a join and a leave on room 20
(counter 2), on room 10 (counter 1, closed connection) and on room 5 (no
entry). -/
theorem C17_join_leave_restores_witness :
    getEntity (runCloseOk (.string "ws")
      [(false, .join 30), (false, .join 10), (false, .join 20), (true, .reconnect 10),
       (false, .join 20)]).liveList 20 = some ⟨2, 2⟩ ∧
    onLeave Env.ok 20 (onJoin Env.ok 20 (runCloseOk (.string "ws")
      [(false, .join 30), (false, .join 10), (false, .join 20), (true, .reconnect 10),
       (false, .join 20)])).2
      = (.ok (), runCloseOk (.string "ws")
          [(false, .join 30), (false, .join 10), (false, .join 20), (true, .reconnect 10),
           (false, .join 20)]) ∧
    onLeave Env.ok 10 (onJoin Env.ok 10 (runCloseOk (.string "ws")
      [(false, .join 30), (false, .join 10), (false, .join 20), (true, .reconnect 10),
       (false, .join 20)])).2
      = (.ok (), runCloseOk (.string "ws")
          [(false, .join 30), (false, .join 10), (false, .join 20), (true, .reconnect 10),
           (false, .join 20)]) ∧
    (onLeave Env.ok 5 (onJoin Env.ok 5 (runCloseOk (.string "ws")
      [(false, .join 30), (false, .join 10), (false, .join 20), (true, .reconnect 10),
       (false, .join 20)])).2).2.liveList
      = (runCloseOk (.string "ws")
          [(false, .join 30), (false, .join 10), (false, .join 20), (true, .reconnect 10),
           (false, .join 20)]).liveList :=
  have h20 := C17_join_leave_restores (.string "ws")
    [(false, .join 30), (false, .join 10), (false, .join 20), (true, .reconnect 10),
     (false, .join 20)] Env.ok Env.ok 20
  have h10 := C17_join_leave_restores (.string "ws")
    [(false, .join 30), (false, .join 10), (false, .join 20), (true, .reconnect 10),
     (false, .join 20)] Env.ok Env.ok 10
  have h5 := C17_join_leave_restores (.string "ws")
    [(false, .join 30), (false, .join 10), (false, .join 20), (true, .reconnect 10),
     (false, .join 20)] Env.ok Env.ok 5
  ⟨by decide, h20.1 2 2 (by decide), h10.1 1 1 (by decide), (h5.2 (by decide) rfl rfl).1⟩

end BilibiliDanmaku
